import Mathlib

/-!
# Verification of the emacs-extractor normalization-and-partial-evaluation core

This file gives a shallow embedding of the core of the `emacs_extractor`
pipeline — the statement normalizer (`transpiler.py`, class `CTranspiler`) and
the symbolic evaluator (`partial_eval.py`, class `PartialEvaluator`) — and
proves/refutes the frozen claims about it.

Conventions of the embedding:

* Python dataclasses `PELispVariable`, `PECVariable`, `PELispSymbol`,
  `PELispForm`, `PECFunctionCall`, `PELispVariableAssignment`,
  `PECVariableAssignment` become constructors of the inductive `PEValue`.
  All of them are declared `@dataclass(eq=False)`, so Python compares and
  hashes them by object identity; side-effect bookkeeping
  (`_potential_side_effects`) is keyed by `id(obj)`.  We therefore carry an
  explicit identity `id : Nat` on every constructed node; construction
  allocates a fresh identity from a counter in the evaluator state, mirroring
  the freshness of `id()` for simultaneously live objects.
* `PECValue = PEValue | int | str | float | bool` (plus Python lists and
  `None`, which flow through the evaluator as plain values).  Floats are
  carried as an opaque textual representation: no claim computes with them.
* The evaluator state mirrors the attributes of `PartialEvaluator`; the Python
  `dict` contents (the routine-local environment written by `__setitem__` and
  read before `__missing__` fires) are an association list `env`.
* The normalized statements are executed by CPython's `exec` with the
  `PartialEvaluator` as globals.  We embed the fragment of Python that the
  transpiler emits (module-level assignments, subscript stores, expression
  statements, `while` loops over concrete integer bounds) as `PyStmt`/`PyExpr`
  with CPython's evaluation order (function loaded before arguments,
  assignment right-hand side evaluated before the target, name loads going
  through the dict and then `__missing__`, name stores through `__setitem__`).
-/

namespace EmacsExtractor

mutual
/-- The symbolic values of `partial_eval.py`.  Each constructor's first field
is the Python object identity (`id()`); the remaining fields are the dataclass
fields, with the source's names. -/
inductive PEValue where
  | PELispVariable (id : Nat) (lisp_name : String)
  | PECVariable (id : Nat) (c_name : String) (local_ : Bool)
  | PELispSymbol (id : Nat) (lisp_name : String)
  | PELispForm (id : Nat) (function : String) (arguments : List PECValue)
  | PECFunctionCall (id : Nat) (c_name : String) (arguments : List PECValue)
  | PELispVariableAssignment (id : Nat) (lisp_name : String) (value : PECValue)
  | PECVariableAssignment (id : Nat) (c_name : String) (value : PECValue) (local_ : Bool)
  deriving Repr

/-- `PECValue = Union[PEValue | int | str | float | bool]`, together with the
plain Python values (`None`, lists) that flow through the evaluator. -/
inductive PECValue where
  | pe (v : PEValue)
  | vInt (n : Int)
  | vStr (s : String)
  | vBool (b : Bool)
  | vFloat (text : String)
  | vList (xs : List PECValue)
  | vNone
  deriving Repr
end

/-- The Python `id()` of a dataclass node. -/
def PEValue.peId : PEValue → Nat
  | .PELispVariable i _ => i
  | .PECVariable i _ _ => i
  | .PELispSymbol i _ => i
  | .PELispForm i _ _ => i
  | .PECFunctionCall i _ _ => i
  | .PELispVariableAssignment i _ _ => i
  | .PECVariableAssignment i _ _ _ => i

/-- `dataclasses.is_dataclass` on a `PECValue`: true exactly for the
`PEValue` dataclass instances, false for ints, strings, bools, floats,
lists and `None`. -/
def PECValue.is_dataclass : PECValue → Bool
  | .pe _ => true
  | _ => false

/-- `isinstance(v, PELispSymbol)`. -/
def PECValue.isLispSymbol : PECValue → Bool
  | .pe (.PELispSymbol _ _) => true
  | _ => false

/-- A value held by a name at Python runtime: either a plain value or one of
the callables that `__missing__` hands out.  The callables are applied at
call sites with the `_watch_side_effects` wrapper semantics (except the
`void` no-op, which the source returns unwrapped). -/
inductive PyVal where
  | val (v : PECValue)
  /-- `lambda *args: PELispForm(self.lisp_functions[key].lisp_name, list(args))`,
  wrapped by `_watch_side_effects`; carries the subroutine's Lisp name. -/
  | lispFn (lisp_name : String)
  /-- `lambda *args: PECFunctionCall(key, list(args))` for a `PE_C_FUNCTIONS`
  member, wrapped by `_watch_side_effects`; carries the key. -/
  | cFn (c_name : String)
  /-- a `PE_UTIL_FUNCTIONS` rewrite rule, wrapped by `_watch_side_effects`. -/
  | utilFn (name : String)
  /-- `lambda _: None`, the rewrite of `(void) 0;` — returned unwrapped. -/
  | voidFn
  /-- one of the callables of the `_globals` table (`ARRAYELTS`, `sizeof`,
  `c_pointer`, `c_array`, `CALLN`, `CALLMANY`), wrapped by
  `_watch_side_effects`. -/
  | builtin (name : String)
  deriving Repr

/-- `dataclasses.is_dataclass` on a runtime value: function objects are not
dataclass instances. -/
def PyVal.is_dataclass : PyVal → Bool
  | .val v => v.is_dataclass
  | _ => false

/-- `isinstance(v, PELispSymbol)` on a runtime value. -/
def PyVal.isLispSymbol : PyVal → Bool
  | .val v => v.isLispSymbol
  | _ => false

/-- `variables.LispVariable` (the fields the evaluator consults):
`lisp_name`, `c_name` is the key it is stored under, `lisp_type` is one of
`"BOOL" | "INT" | "LISP" | "KBOARD"`, and `init_value` is the mutable
default (`None` initially). -/
structure LispVariable where
  lisp_name : String
  c_name : String
  lisp_type : String
  init_value : Option PECValue
  deriving Repr

/-- `variables.CVariable`. -/
structure CVariable where
  c_name : String
  static : Bool
  deriving Repr

/-- `variables.LispSymbol` (the fields the evaluator consults). -/
structure LispSymbol where
  lisp_name : String
  c_name : String
  deriving Repr

/-- `subroutines.Subroutine` (the fields the evaluator consults). -/
structure Subroutine where
  lisp_name : String
  c_name : String
  deriving Repr

/-- `constants.CConstant` (the fields the evaluator consults): `value` is an
`int | str`. -/
structure CConstant where
  name : String
  value : PECValue
  deriving Repr

/-- `extractor.FileContents` (the fields the evaluator consults). -/
structure FileContents where
  lisp_variables : List LispVariable
  c_variables : List CVariable
  constants : List CConstant
  functions : List Subroutine
  deriving Repr

/-- Replace the binding of `k` if present (keeping its position, like a
Python `dict` update), otherwise append it (insertion order). -/
def assocSet {α : Type} (m : List (String × α)) (k : String) (v : α) :
    List (String × α) :=
  if m.any (fun p => p.1 == k) then
    m.map (fun p => if p.1 == k then (k, v) else p)
  else m ++ [(k, v)]

/-- `dict.update` with a sequence of key/value pairs. -/
def assocUpdate {α : Type} (m : List (String × α)) (kvs : List (String × α)) :
    List (String × α) :=
  kvs.foldl (fun m kv => assocSet m kv.1 kv.2) m

/-- The state of a `PartialEvaluator` during `evaluate`.  The catalog
attributes are built by `__init__`, the per-routine attributes by `reset`. -/
structure EvalState where
  /-- `self.constants` — all constants in all files, keyed by name. -/
  constants : List (String × PECValue)
  /-- `self._current.constants` — the constants of the file being evaluated. -/
  currentConstants : List (String × PECValue)
  /-- `self.lisp_symbols` — `c_name ↦ lisp_name`. -/
  lisp_symbols : List (String × String)
  /-- `self.c_variables` — the non-static C globals, keyed by `c_name`. -/
  c_variables : List String
  /-- `self.lisp_functions` — `c_name ↦ lisp_name`. -/
  lisp_functions : List (String × String)
  /-- `self.lisp_variables` — `c_name ↦ LispVariable` (with the mutable
  `init_value` field). -/
  lisp_variables : List (String × LispVariable)
  /-- `self._static_variables` — static C variables of the current file. -/
  static_variables : List String
  /-- `self._extra_globals`. -/
  extra_globals : List (String × PyVal)
  /-- the `lispsym` list built in `__init__` (with its element identities). -/
  lispsymList : List PECValue
  /-- `self._local_variables`. -/
  local_variables : List String
  /-- the `dict` contents (the routine-local environment). -/
  env : List (String × PyVal)
  /-- `self._evaluated`. -/
  evaluated : List (Option PEValue)
  /-- `self._potential_side_effects` — object identity ↦ index into
  `evaluated`. -/
  pending : List (Nat × Nat)
  /-- the next fresh object identity. -/
  nextId : Nat
  deriving Repr

/-- Allocate a fresh object identity. -/
def EvalState.fresh (st : EvalState) : Nat × EvalState :=
  (st.nextId, { st with nextId := st.nextId + 1 })

/-- `self._potential_side_effects.pop(k, None)`: the stored index (if any) and
the dictionary without the entry. -/
def pendingPop (p : List (Nat × Nat)) (k : Nat) : Option Nat × List (Nat × Nat) :=
  match p.lookup k with
  | some i => (some i, p.eraseP (fun q => q.1 == k))
  | none => (none, p)

/-- `_remove_side_effects(v)` on a live value: if `v` is a dataclass instance
whose identity has a pending-effects entry, pop the entry and blank the trace
slot (`self._evaluated[i] = None`).  Non-dataclass values return unchanged. -/
def removeSideEffects (st : EvalState) (v : PECValue) : EvalState :=
  match v with
  | .pe node =>
      match pendingPop st.pending node.peId with
      | (some i, p) => { st with pending := p, evaluated := st.evaluated.set i none }
      | (none, _) => st
  | _ => st

/-- A value that `_walk_remove_side_effect` obtains from
`dataclasses.asdict(v).values()`.  `asdict` recursively converts every nested
dataclass instance — including the elements of list fields — into a plain
`dict` copy, so no object reaching the inner `_remove_side_effects` calls is a
dataclass instance (and even its `id()` is that of a fresh copy). -/
inductive AsdictObj where
  | plainCopy
  deriving Repr

/-- The objects on which `_walk_remove_side_effect(v)` invokes
`_remove_side_effects` before retracting `v` itself: the elements of list
fields (as `asdict` copies).  String/bool/int fields and dataclass-valued
fields fail the `is_dataclass` test (the latter because `asdict` turned them
into plain dicts) and are skipped by the `continue`. -/
def asdictChildren : PEValue → List AsdictObj
  | .PELispForm _ _ arguments => arguments.map (fun _ => .plainCopy)
  | .PECFunctionCall _ _ arguments => arguments.map (fun _ => .plainCopy)
  | _ => []

/-- `_remove_side_effects` applied to an `asdict` copy: the
`if not is_dataclass(v)` guard fires, so nothing happens. -/
def removeSideEffectsCopy (st : EvalState) : AsdictObj → EvalState
  | .plainCopy => st

/-- `_walk_remove_side_effect(v)`: walk the `asdict` image of `v` (a no-op on
every child, see `asdictChildren`), then retract `v`'s own pending-effects
entry. -/
def walkRemoveSideEffect (st : EvalState) (v : PECValue) : EvalState :=
  match v with
  | .pe node =>
      removeSideEffects ((asdictChildren node).foldl removeSideEffectsCopy st) (.pe node)
  | _ => st

/-- `_walk_remove_side_effect` on a runtime value: function objects fail the
`is_dataclass` test and return immediately. -/
def walkRemoveSideEffectVal (st : EvalState) (v : PyVal) : EvalState :=
  match v with
  | .val v => walkRemoveSideEffect st v
  | _ => st

/-- `_to_simple(v)`: canonical `'t'`/`'nil'` symbol atoms become Python
`True`/`False`; the result is "simple" iff it is an `int`, `float` or `bool`. -/
def toSimple (v : PECValue) : PECValue × Bool :=
  let v : PECValue :=
    match v with
    | .pe (.PELispSymbol i name) =>
        if name == "t" then .vBool true
        else if name == "nil" then .vBool false
        else .pe (.PELispSymbol i name)
    | _ => v
  match v with
  | .vInt _ => (v, true)
  | .vFloat _ => (v, true)
  | .vBool _ => (v, true)
  | _ => (v, false)

/-- View a runtime value as a `PECValue` for storage inside a constructed
node.  Function objects never reach these positions in the extractor. -/
def PyVal.asPEC : PyVal → Except String PECValue
  | .val v => .ok v
  | _ => .error "function object stored in a symbolic node"

/-- `list(args)` conversion for node construction. -/
def asPECs : List PyVal → Except String (List PECValue)
  | [] => .ok []
  | v :: rest =>
      match v.asPEC with
      | .error e => .error e
      | .ok p =>
          match asPECs rest with
          | .error e => .error e
          | .ok ps => .ok (p :: ps)

/-- The `if not init:` arm of `__setitem__` for a declared Lisp variable:
append an explicit `PELispVariableAssignment` node and record a
`PELispVariable` self-reference as the variable's live value. -/
def setItemLispAssign (st : EvalState) (key : String) (var : LispVariable)
    (value : PyVal) : Except String EvalState :=
  match value.asPEC with
  | .error e => .error e
  | .ok v =>
      let (n1, st) := st.fresh
      let st := { st with
        evaluated := st.evaluated ++ [some (PEValue.PELispVariableAssignment n1 var.lisp_name v)] }
      let (n2, st) := st.fresh
      .ok { st with env := assocSet st.env key (.val (.pe (.PELispVariable n2 var.lisp_name))) }

/-- `__setitem__(key, value)`: first retract the assigned value's own
pending-effects entry, then dispatch on what `key` names. -/
def setItem (st0 : EvalState) (key : String) (value : PyVal) :
    Except String EvalState :=
  let st := walkRemoveSideEffectVal st0 value
  match st.lisp_variables.lookup key with
  | some var =>
      -- `if key in self.lisp_variables`
      if var.init_value.isNone then
        match value with
        | .val pv =>
            match toSimple pv with
            | (simplified, true) =>
                -- the default folds: store the literal, emit nothing
                let var' : LispVariable := { var with init_value := some simplified }
                let st := { st with lisp_variables := assocSet st.lisp_variables key var' }
                let (n, st) := st.fresh
                let st := { st with
                  env := assocSet st.env key (.val (.pe (.PELispVariable n var.lisp_name))) }
                .ok st
            | (_, false) => setItemLispAssign st key var value
        | _ => setItemLispAssign st key var value
      else setItemLispAssign st key var value
  | none =>
    if st.c_variables.contains key then
      -- `elif key in self.c_variables`
      match value.asPEC with
      | .error e => .error e
      | .ok v =>
          let (n1, st) := st.fresh
          let st := { st with
            evaluated := st.evaluated ++ [some (PEValue.PECVariableAssignment n1 key v false)] }
          let (n2, st) := st.fresh
          .ok { st with env := assocSet st.env key (.val (.pe (.PECVariable n2 key false))) }
    else
      -- routine-local binding
      let st := { st with local_variables :=
        if st.local_variables.contains key then st.local_variables
        else st.local_variables ++ [key] }
      if value.is_dataclass && !value.isLispSymbol then
        let (n1, st) := st.fresh
        let recorded : PyVal := .val (.pe (.PECVariable n1 key true))
        match value.asPEC with
        | .error e => .error e
        | .ok v =>
            let (n2, st) := st.fresh
            let st := { st with
              evaluated := st.evaluated ++ [some (PEValue.PECVariableAssignment n2 key v true)] }
            .ok { st with env := assocSet st.env key recorded }
      else
        .ok { st with env := assocSet st.env key value }

/-- The keys of `PE_C_FUNCTIONS`. -/
def PE_C_FUNCTIONS : List String :=
  ["make_string", "make_vector", "make_float", "make_fixnum", "make_int",
   "make_symbol_constant", "make_symbol_special", "make_hash_table",
   "set_char_table_purpose", "set_char_table_defalt", "char_table_set_range",
   "decode_env_path", "malloc", "memset"]

/-- The keys of `PE_UTIL_FUNCTIONS`. -/
def PE_UTIL_FUNCTION_NAMES : List String :=
  ["make_pure_string", "build_pure_c_string", "build_unibyte_string",
   "build_string", "intern_c_string", "intern", "pure_cons", "pure_list",
   "list1", "list2", "list3", "list4", "listn", "nconc2", "make_pure_vector",
   "make_nil_vector", "ASET", "AREF", "CHAR_TABLE_SET"]

/-- The `self._globals` table built in `__init__`: two plain values (`NULL`
and the prebuilt `lispsym` list) and the built-in callables. -/
def globalsLookup (st : EvalState) : String → Option PyVal
  | "NULL" => some (.val (.vInt 0))
  | "ARRAYELTS" => some (.builtin "ARRAYELTS")
  | "lispsym" => some (.val (.vList st.lispsymList))
  | "sizeof" => some (.builtin "sizeof")
  | "c_pointer" => some (.builtin "c_pointer")
  | "c_array" => some (.builtin "c_array")
  | "CALLN" => some (.builtin "CALLN")
  | "CALLMANY" => some (.builtin "CALLMANY")
  | _ => none

/-- The tier-2 membership test of `__missing__`:
`key in self._current.constants`.  `FileContents.constants` is a
`list[CConstant]`, so Python's `in` compares the string `key` against
`CConstant` dataclass instances with `==`; `str.__eq__` answers
`NotImplemented` and the dataclass `__eq__` requires matching classes, so
every element comparison is `False` and the test never succeeds, whatever
constants the current file stores (carried in the state as their
name/value image). -/
def strInCConstantList (_key : String) (cs : List (String × PECValue)) : Bool :=
  cs.any (fun _c => false)

/-- `__missing__(key)`: the fallback chain consulted when a name is loaded
that the routine has not assigned.  Mirrors the source's `if` chain tier by
tier; an exhausted chain raises `KeyError(key)`, carried here as the error
payload.  The second tier is dead code (see `strInCConstantList`): its
body `self._current.constants[key].value` would subscript a `list` with a
string and is unreachable. -/
def missingLookup (st : EvalState) (key : String) :
    Except String (PyVal × EvalState) :=
  match st.constants.lookup key with
  | some v => .ok (.val v, st)
  | none =>
  if strInCConstantList key st.currentConstants then .error "TypeError"
  else
  match st.lisp_symbols.lookup key with
  | some lname =>
      let (n, st) := st.fresh
      .ok (.val (.pe (.PELispSymbol n lname)), st)
  | none =>
  if st.c_variables.contains key then
    let (n, st) := st.fresh
    .ok (.val (.pe (.PECVariable n key false)), st)
  else
  match st.lisp_functions.lookup key with
  | some lname => .ok (.lispFn lname, st)
  | none =>
  if key == "void" then .ok (.voidFn, st)
  else if PE_UTIL_FUNCTION_NAMES.contains key then .ok (.utilFn key, st)
  else if PE_C_FUNCTIONS.contains key then .ok (.cFn key, st)
  else
  match st.lisp_variables.lookup key with
  | some v =>
      if v.lisp_type == "BOOL" then .ok (.val (.vBool false), st)
      else if v.lisp_type == "INT" then .ok (.val (.vInt 0), st)
      else
        let (n, st) := st.fresh
        .ok (.val (.pe (.PELispVariable n v.lisp_name)), st)
  | none =>
  match st.extra_globals.lookup key with
  | some v => .ok (v, st)
  | none =>
  match globalsLookup st key with
  | some v => .ok (v, st)
  | none => .error key

/-- A module-level name load under `exec`: the dict contents first
(`dict.__getitem__`), falling back to `__missing__`. -/
def nameLookup (st : EvalState) (key : String) :
    Except String (PyVal × EvalState) :=
  match st.env.lookup key with
  | some v => .ok (v, st)
  | none => missingLookup st key

/-- Construct a `PECFunctionCall` node with a fresh identity. -/
def mkCCall (st : EvalState) (c_name : String) (args : List PECValue) :
    PyVal × EvalState :=
  let (n, st) := st.fresh
  (.val (.pe (.PECFunctionCall n c_name args)), st)

/-- Construct a `PELispForm` node with a fresh identity. -/
def mkForm (st : EvalState) (function : String) (args : List PECValue) :
    PyVal × EvalState :=
  let (n, st) := st.fresh
  (.val (.pe (.PELispForm n function args)), st)

/-- Construct a `PELispSymbol` node with a fresh identity. -/
def mkSym (st : EvalState) (lisp_name : String) : PyVal × EvalState :=
  let (n, st) := st.fresh
  (.val (.pe (.PELispSymbol n lisp_name)), st)

/-- The `wrapper` closure of `_watch_side_effects`: run the wrapped callable,
then walk every argument retracting its pending-effects entry, then — if the
result is a dataclass instance whose identity is not already pending —
register it at the end of the trace as a potential top-level side effect. -/
def watchedApply (st : EvalState) (args : List PyVal)
    (mk : EvalState → Except String (PyVal × EvalState)) :
    Except String (PyVal × EvalState) :=
  match mk st with
  | .error e => .error e
  | .ok (result, st) =>
      let st := args.foldl walkRemoveSideEffectVal st
      match result with
      | .val (.pe node) =>
          if (st.pending.lookup node.peId).isSome then .ok (result, st)
          else
            let st := { st with
              pending := st.pending ++ [(node.peId, st.evaluated.length)],
              evaluated := st.evaluated ++ [some node] }
            .ok (result, st)
      | _ => .ok (result, st)

/-- The `PE_UTIL_FUNCTIONS` rewrite lambdas.  Arguments are used per their
type annotations (the only shapes the extractor produces); an arity mismatch
is Python's `TypeError`. -/
def applyUtil (st : EvalState) (name : String) (args : List PyVal) :
    Except String (PyVal × EvalState) :=
  match name, args with
  | "make_pure_string", [s, nchars, _nbytes, _multibyte] =>
      match s.asPEC, nchars.asPEC with
      | .ok sv, .ok nv => .ok (mkCCall st "make_string" [sv, nv])
      | _, _ => .error "TypeError"
  | "build_pure_c_string", [.val (.vStr s)] =>
      .ok (mkCCall st "make_string" [.vStr s, .vInt s.utf8ByteSize])
  | "build_unibyte_string", [.val (.vStr s)] =>
      .ok (mkCCall st "make_string" [.vStr s, .vInt s.length])
  | "build_string", [.val (.vStr s)] =>
      .ok (mkCCall st "make_string" [.vStr s, .vInt s.utf8ByteSize])
  | "intern_c_string", [.val (.vStr s)] => .ok (mkSym st s)
  | "intern", [.val (.vStr s)] => .ok (mkSym st s)
  | "pure_cons", [car, cdr] =>
      match car.asPEC, cdr.asPEC with
      | .ok a, .ok b => .ok (mkForm st "cons" [a, b])
      | _, _ => .error "TypeError"
  | "pure_list", _ =>
      match asPECs args with
      | .ok ps => .ok (mkForm st "list" ps)
      | .error e => .error e
  | "list1", [car] =>
      match car.asPEC with
      | .ok a => .ok (mkForm st "list" [a])
      | .error e => .error e
  | "list2", [car, cdr] =>
      match car.asPEC, cdr.asPEC with
      | .ok a, .ok b => .ok (mkForm st "list" [a, b])
      | _, _ => .error "TypeError"
  | "list3", [car, cdr, cddr] =>
      match car.asPEC, cdr.asPEC, cddr.asPEC with
      | .ok a, .ok b, .ok c => .ok (mkForm st "list" [a, b, c])
      | _, _, _ => .error "TypeError"
  | "list4", [car, cdr, cddr, cdddr] =>
      match car.asPEC, cdr.asPEC, cddr.asPEC, cdddr.asPEC with
      | .ok a, .ok b, .ok c, .ok d => .ok (mkForm st "list" [a, b, c, d])
      | _, _, _, _ => .error "TypeError"
  | "listn", _n :: rest =>
      match asPECs rest with
      | .ok ps => .ok (mkForm st "list" ps)
      | .error e => .error e
  | "nconc2", [car, cdr] =>
      match car.asPEC, cdr.asPEC with
      | .ok a, .ok b => .ok (mkForm st "nconc" [a, b])
      | _, _ => .error "TypeError"
  | "make_pure_vector", [n] =>
      match n.asPEC with
      | .ok nv =>
          let (ns, st) := st.fresh
          .ok (mkCCall st "make_vector" [nv, .pe (.PELispSymbol ns "nil")])
      | .error e => .error e
  | "make_nil_vector", [n] =>
      match n.asPEC with
      | .ok nv =>
          let (ns, st) := st.fresh
          .ok (mkCCall st "make_vector" [nv, .pe (.PELispSymbol ns "nil")])
      | .error e => .error e
  | "ASET", [vec, index, value] =>
      match vec.asPEC, index.asPEC, value.asPEC with
      | .ok a, .ok b, .ok c => .ok (mkForm st "aset" [a, b, c])
      | _, _, _ => .error "TypeError"
  | "AREF", [vec, index] =>
      match vec.asPEC, index.asPEC with
      | .ok a, .ok b => .ok (mkForm st "aref" [a, b])
      | _, _ => .error "TypeError"
  | "CHAR_TABLE_SET", [table, index, value] =>
      match table.asPEC, index.asPEC, value.asPEC with
      | .ok a, .ok b, .ok c => .ok (mkCCall st "char_table_set" [a, b, c])
      | _, _, _ => .error "TypeError"
  | _, _ => .error "TypeError"

/-- Application of the non-`_globals` callables.  `void`'s
`lambda _: None` is the only one not wrapped by `_watch_side_effects`. -/
def applyPlain (st : EvalState) (f : PyVal) (args : List PyVal) :
    Except String (PyVal × EvalState) :=
  match f with
  | .voidFn =>
      match args with
      | [_] => .ok (.val .vNone, st)
      | _ => .error "TypeError"
  | .lispFn lname =>
      watchedApply st args (fun st =>
        match asPECs args with
        | .ok ps => .ok (mkForm st lname ps)
        | .error e => .error e)
  | .cFn cname =>
      watchedApply st args (fun st =>
        match asPECs args with
        | .ok ps => .ok (mkCCall st cname ps)
        | .error e => .error e)
  | .utilFn uname => watchedApply st args (fun st => applyUtil st uname args)
  | _ => .error "TypeError: not callable here"

/-- The `_globals` callables (`len`, `sizeof`, `c_pointer`, `c_array`,
`CALLN`, `CALLMANY`).  `CALLN`/`CALLMANY` forward to the function object they
receive; the extractor only ever passes them the catalogued/primitive
callables modelled by `applyPlain`. -/
def applyBuiltin (st : EvalState) (name : String) (args : List PyVal) :
    Except String (PyVal × EvalState) :=
  match name, args with
  | "ARRAYELTS", [.val (.vList xs)] => .ok (.val (.vInt xs.length), st)
  | "ARRAYELTS", [.val (.vStr s)] => .ok (.val (.vInt s.length), st)
  | "sizeof", [x] =>
      match x.asPEC with
      | .ok xv => .ok (mkCCall st "sizeof" [xv])
      | .error e => .error e
  | "c_pointer", [_, x] => .ok (x, st)
  | "c_array", [.val (.vInt n), .val (.vList xs)] =>
      let elems := (List.range n.toNat).map (fun i =>
        if !xs.isEmpty && decide (i < xs.length) then xs.getD i .vNone else .vNone)
      .ok (.val (.vList elems), st)
  | "c_array", [.val (.vInt n), .val .vNone] =>
      .ok (.val (.vList ((List.range n.toNat).map (fun _ => PECValue.vNone))), st)
  | "CALLN", f :: rest => applyPlain st f rest
  | "CALLMANY", [f, .val (.vList xs)] => applyPlain st f (xs.map .val)
  | _, _ => .error "TypeError"

/-- Apply a runtime callable to evaluated arguments, with the
`_watch_side_effects` wrapper that `__missing__` installed around it. -/
def applyCallable (st : EvalState) (f : PyVal) (args : List PyVal) :
    Except String (PyVal × EvalState) :=
  match f with
  | .builtin bname => watchedApply st args (fun st => applyBuiltin st bname args)
  | .val _ => .error "TypeError: object is not callable"
  | _ => applyPlain st f args

/-- The binary operators occurring in the transpiled statements we execute. -/
inductive PyBin where
  | add
  | sub
  | lt
  deriving Repr

/-- CPython's binary operations on the `int` values the transpiled code
computes with. -/
def applyBin : PyBin → PyVal → PyVal → Except String PyVal
  | .add, .val (.vInt a), .val (.vInt b) => .ok (.val (.vInt (a + b)))
  | .sub, .val (.vInt a), .val (.vInt b) => .ok (.val (.vInt (a - b)))
  | .lt, .val (.vInt a), .val (.vInt b) => .ok (.val (.vBool (decide (a < b))))
  | _, _, _ => .error "TypeError"

/-- Expressions of the Python fragment that the transpiler emits and `exec`
evaluates against the `PartialEvaluator` dict. -/
inductive PyExpr where
  | lit (v : PECValue)
  | name (s : String)
  | bin (op : PyBin) (l r : PyExpr)
  | subscript (a i : PyExpr)
  /-- a call of a named function, `f(a, b, ...)` — CPython loads the function
  name, then evaluates the arguments left to right, then calls. -/
  | call (f : String) (args : List PyExpr)
  deriving Repr

/-- `list.__getitem__` (Python indexing, including negative wrap-around). -/
def getIndex (a i : PyVal) : Except String PyVal :=
  match a, i with
  | .val (.vList xs), .val (.vInt n) =>
      let n' : Int := if n < 0 then (xs.length : Int) + n else n
      if 0 ≤ n' ∧ n'.toNat < xs.length then .ok (.val (xs.getD n'.toNat .vNone))
      else .error "IndexError"
  | _, _ => .error "TypeError"

mutual
/-- Evaluate one expression against the `PartialEvaluator` globals dict. -/
def evalExpr (st : EvalState) : PyExpr → Except String (PyVal × EvalState)
  | .lit v => .ok (.val v, st)
  | .name s => nameLookup st s
  | .bin op l r =>
      match evalExpr st l with
      | .error e => .error e
      | .ok (lv, st) =>
          match evalExpr st r with
          | .error e => .error e
          | .ok (rv, st) =>
              match applyBin op lv rv with
              | .error e => .error e
              | .ok v => .ok (v, st)
  | .subscript a i =>
      match evalExpr st a with
      | .error e => .error e
      | .ok (av, st) =>
          match evalExpr st i with
          | .error e => .error e
          | .ok (iv, st) =>
              match getIndex av iv with
              | .error e => .error e
              | .ok v => .ok (v, st)
  | .call f args =>
      match nameLookup st f with
      | .error e => .error e
      | .ok (fv, st) =>
          match evalArgs st args with
          | .error e => .error e
          | .ok (argv, st) => applyCallable st fv argv

/-- Evaluate an argument list left to right. -/
def evalArgs (st : EvalState) :
    List PyExpr → Except String (List PyVal × EvalState)
  | [] => .ok ([], st)
  | e :: rest =>
      match evalExpr st e with
      | .error e => .error e
      | .ok (v, st) =>
          match evalArgs st rest with
          | .error e => .error e
          | .ok (vs, st) => .ok (v :: vs, st)
end

/-- CPython truthiness for the values the transpiled statements test.
(Floats never occur as a loop condition in the transpiled statements.) -/
def truthy : PyVal → Bool
  | .val (.vBool b) => b
  | .val (.vInt n) => n != 0
  | .val (.vStr s) => s != ""
  | .val (.vList xs) => !xs.isEmpty
  | .val .vNone => false
  | _ => true

/-- Statements of the Python fragment that the transpiler emits.  `i += 1`
compiles to a load of `i`, an add, and a store of `i`, i.e.
`assignName "i" (bin .add (name "i") (lit 1))`. -/
inductive PyStmt where
  | skip
  | seq (a b : PyStmt)
  /-- a module-level name store: goes through
  `PartialEvaluator.__setitem__`. -/
  | assignName (x : String) (e : PyExpr)
  /-- `arr[i] = e`: CPython evaluates `e`, loads `arr`, evaluates `i` and
  stores into the list object — it does NOT call the dict's `__setitem__`.
  We require the target list to be bound in the dict itself (the only shape
  the transpiled routines produce). -/
  | assignSub (arr : String) (i : PyExpr) (e : PyExpr)
  | exprStmt (e : PyExpr)
  | whileStmt (c : PyExpr) (b : PyStmt)
  deriving Repr

/-- Execute statements.  The `fuel` parameter makes the recursion structural
(it decreases on every recursive call and thus bounds `seq` nesting depth
plus `while` iterations); the extractor's loops always have concrete bounds,
and any sufficient fuel yields the same result. -/
def execStmt : Nat → EvalState → PyStmt → Except String EvalState
  | 0, _, _ => .error "recursion limit"
  | fuel + 1, st, stmt =>
      match stmt with
      | .skip => .ok st
      | .seq a b =>
          match execStmt fuel st a with
          | .error e => .error e
          | .ok st => execStmt fuel st b
      | .assignName x e =>
          match evalExpr st e with
          | .error err => .error err
          | .ok (v, st) => setItem st x v
      | .assignSub arr i e =>
          match evalExpr st e with
          | .error err => .error err
          | .ok (v, st) =>
              match st.env.lookup arr with
              | some (.val (.vList xs)) =>
                  (match evalExpr st i with
                  | .error err => .error err
                  | .ok (iv, st) =>
                      match iv, v with
                      | .val (.vInt n), .val pv =>
                          let n' : Int := if n < 0 then (xs.length : Int) + n else n
                          if 0 ≤ n' ∧ n'.toNat < xs.length then
                            let xs' := xs.set n'.toNat pv
                            .ok { st with env := assocSet st.env arr (.val (.vList xs')) }
                          else .error "IndexError"
                      | _, _ => .error "TypeError")
              | _ => .error "unsupported subscript target"
      | .exprStmt e =>
          match evalExpr st e with
          | .error err => .error err
          | .ok (_, st) => .ok st
      | .whileStmt c b =>
          match evalExpr st c with
          | .error err => .error err
          | .ok (cv, st) =>
              if truthy cv then
                match execStmt fuel st b with
                | .error err => .error err
                | .ok st => execStmt fuel st (.whileStmt c b)
              else .ok st

/-- `_pe_constant(statement)`: a routine-local assignment of a plain value is
provably inert bookkeeping. -/
def pe_constant : PEValue → Bool
  | .PECVariableAssignment _ _ value local_ => local_ && !value.is_dataclass
  | _ => false

/-- The final filter of `evaluate`: drop blanked slots and inert local
assignments, keeping original order. -/
def finalTrace (evaluated : List (Option PEValue)) : List PEValue :=
  evaluated.filterMap (fun s =>
    match s with
    | some stmt => if pe_constant stmt then none else some stmt
    | none => none)

/-- `__init__(all_symbols, files)` followed by `reset(current, extra)`: the
state at the start of `evaluate`. -/
def initEval (all_symbols : List LispSymbol) (files : List FileContents)
    (current : FileContents) (extra : List (String × PyVal)) : EvalState :=
  { constants := files.foldl
      (fun m f => assocUpdate m (f.constants.map (fun c => (c.name, c.value)))) [],
    currentConstants := current.constants.map (fun c => (c.name, c.value)),
    lisp_symbols := all_symbols.map (fun s => (s.c_name, s.lisp_name)),
    c_variables := files.foldl
      (fun l f => l ++ (f.c_variables.filter (fun v => !v.static)).map (fun v => v.c_name)) [],
    lisp_functions := files.foldl
      (fun m f => assocUpdate m (f.functions.map (fun fn => (fn.c_name, fn.lisp_name)))) [],
    lisp_variables := files.foldl
      (fun m f => assocUpdate m (f.lisp_variables.map (fun v => (v.c_name, v)))) [],
    static_variables := (current.c_variables.filter (fun v => v.static)).map (fun v => v.c_name),
    extra_globals := extra,
    lispsymList := all_symbols.enum.map (fun p => .pe (.PELispSymbol p.1 p.2.lisp_name)),
    local_variables := [],
    env := [],
    evaluated := [],
    pending := [],
    nextId := all_symbols.length }

/-- `PartialEvaluator.evaluate(code, current, extra_globals)`: reset, `exec`
the transpiled statements, and return the retained trace. -/
def evaluate (all_symbols : List LispSymbol) (files : List FileContents)
    (current : FileContents) (extra : List (String × PyVal))
    (fuel : Nat) (code : PyStmt) : Except String (List PEValue) :=
  match execStmt fuel (initEval all_symbols files current extra) code with
  | .error e => .error e
  | .ok st => .ok (finalTrace st.evaluated)

/-!
## The statement normalizer (`transpiler.py`, class `CTranspiler`)

We embed the parsed-C subtrees (`tree_sitter.Node`) that appear in the
initialization routines as the inductives `CExpr`/`CStmt`, and
`_transpile_expression` / `_transpile_to_python` over them.

* `_transpile_expression` builds a text via a local `string_builder` and may
  append synthesized side statements to `self._result_stack[-1]` — the
  statement list currently under construction.  We return the pair
  `(side statements, expression text)`; the caller places the side
  statements before the line it appends, which is exactly where the Python
  list mutations put them.
* `self._indentations` is an ambient stack whose top the `update_expression`
  arm uses to indent its synthesized statement; we pass the top as the `ind`
  parameter (0 at top level, 4 inside `if`/`while`/`for` blocks, 0 inside an
  `assignment_expression`'s operands).
* The textual override rules hold a compiled regular expression and an
  optional replacement.  The `re` machinery is external; a rule is modelled
  by its observable interface: `search` (does it match?) and `sub`
  (replacement text for a given replacement template and input).
* The zero-argument initialization-routine inlining of the
  `call_expression` arm is not exercised by the claims; the embedding covers
  transpilation with no registered inlinable routine, so calls always take
  the fall-through branch.
-/

/-- A compiled override rule pattern (`re.Pattern`), by its observable
interface. -/
structure RePattern where
  search : String → Bool
  sub : String → String → String

/-- The rule list for the routine being transpiled
(`self._replaces_stack[-1]`): a pattern paired with `None` (delete the line)
or a replacement template. -/
def RuleList := List (RePattern × Option String)

/-- `_try_replace(value)`: try the rules in declaration order; on the first
match, delete (demote to a comment) or substitute, and stop. -/
def tryReplace (rules : RuleList) (value : String) : String :=
  match rules with
  | [] => value
  | (r, sub) :: rest =>
      if r.search value then
        match sub with
        | none => "# " ++ value
        | some s => r.sub s value
      else tryReplace rest value

/-- The expression subtrees occurring in the normalized routines.
`update` is an `update_expression` on an identifier: `pre` distinguishes
`++i`/`--i` from `i++`/`i--`, `inc` increment from decrement. -/
inductive CExpr where
  | ident (s : String)
  | num (n : Nat)
  | callE (f : String) (args : List CExpr)
  | subscriptE (a i : CExpr)
  | binaryE (op : String) (l r : CExpr)
  | assignE (l r : CExpr)
  | update (pre : Bool) (inc : Bool) (name : String)
  /-- a `declaration` with a single declarator: identifier, optional array
  size, optional initializer value. -/
  | declE (name : String) (size : Option CExpr) (value : Option CExpr)
  deriving Repr

/-- `text.replace(';', '')` for the single-character pattern `';'`: drop
every semicolon. -/
def stripSemicolons (s : String) : String :=
  String.mk (s.data.filter (fun c => c != ';'))

/-- `' ' * self._indentations[-1]`. -/
def indentStr (ind : Nat) : String := String.mk (List.replicate ind ' ')

/-- `self._indent` applied to the lines of a nested block
(`self._indentations[-1] == 4`). -/
def indent4 (lines : List String) : List String :=
  lines.map (fun l => "    " ++ l)

/-- The binary operator text: `&&`/`||` become python `and`/`or`, anything
else is kept verbatim. -/
def binOpText (op : String) : String :=
  if op == "&&" then " and " else if op == "||" then " or " else op

mutual
/-- The `walk_expression` traversal of `_transpile_expression`: returns the
side statements appended to `self._result_stack[-1]` (in order) and the text
accumulated in `string_builder`. -/
def walkExpr (rules : RuleList) (ind : Nat) : CExpr → List String × String
  | .ident s => ([], s)
  | .num n => ([], toString n)
  | .callE f args =>
      -- fall-through branch: the node's leaves (name, parens, commas) are
      -- appended in traversal order around the walked arguments.
      let rs := walkArgs rules ind args
      (rs.1, f ++ "(" ++ String.intercalate "," rs.2 ++ ")")
  | .subscriptE a i =>
      let ra := walkExpr rules ind a
      let ri := walkExpr rules ind i
      (ra.1 ++ ri.1, ra.2 ++ "[" ++ ri.2 ++ "]")
  | .binaryE op l r =>
      let rl := walkExpr rules ind l
      let rr := walkExpr rules ind r
      (rl.1 ++ rr.1, rl.2 ++ binOpText op ++ rr.2)
  | .assignE l r =>
      -- `self._indentations.append(0)` around the two recursive
      -- `_transpile_expression` calls (walk + `';'` strip) on the operands
      let rl := walkExpr rules 0 l
      let rr := walkExpr rules 0 r
      let ltext := stripSemicolons rl.2
      let statement := ltext ++ "=" ++ stripSemicolons rr.2
      let replaced := tryReplace rules statement
      (rl.1 ++ rr.1 ++ [replaced], if replaced == statement then ltext else "")
  | .update pre inc name =>
      let op := if inc then " += 1" else " -= 1"
      let postfix_ := if pre then "" else if inc then " - 1" else " + 1"
      ([indentStr ind ++ name ++ op], name ++ postfix_)
  | .declE name size value =>
      match size with
      | some sz =>
          let rs := walkExpr rules ind sz
          let rv : List String × String :=
            match value with
            | some v => walkExpr rules ind v
            | none => ([], "None")
          (rs.1 ++ rv.1, name ++ "=" ++ "c_array(" ++ rs.2 ++ "," ++ rv.2 ++ ")")
      | none =>
          match value with
          | some v =>
              let rv := walkExpr rules ind v
              (rv.1, name ++ "=" ++ rv.2)
          | none => ([], name ++ "=" ++ "None")

/-- Walk an argument list in order. -/
def walkArgs (rules : RuleList) (ind : Nat) :
    List CExpr → List String × List String
  | [] => ([], [])
  | e :: rest =>
      let re_ := walkExpr rules ind e
      let rs := walkArgs rules ind rest
      (re_.1 ++ rs.1, re_.2 :: rs.2)

end

/-- `_transpile_expression`: the walk, with `';'` stripped from the returned
text (side statements are appended to the result list as-is). -/
def transpileExpression (rules : RuleList) (ind : Nat) (e : CExpr) :
    List String × String :=
  let r := walkExpr rules ind e
  (r.1, stripSemicolons r.2)

/-- The statement subtrees occurring in the normalized routines.
A statement-level `declaration` node behaves exactly like an
`expression_statement` holding the declaration (both arms transpile the
child and append the line through `_try_replace`), so `exprStmt (.declE …)`
embeds it. -/
inductive CStmt where
  | exprStmt (e : CExpr)
  | ifStmt (cond : CExpr) (thenB : List CStmt) (elseB : Option (List CStmt))
  | whileStmt (cond : CExpr) (body : List CStmt)
  /-- `for (init; cond; update) body`; the initializer is a declaration or
  an expression transpiled by `_transpile_expression`. -/
  | forStmt (init : Option CExpr) (cond : Option CExpr) (update : Option CExpr)
      (body : List CStmt)
  deriving Repr

mutual
/-- One iteration of the statement loop of `_transpile_to_python` for a
child node, producing the lines appended to `results`.  `ind` is the current
top of `self._indentations` (0 at top level, 4 inside a block). -/
def transpileStmt (rules : RuleList) (ind : Nat) : CStmt → List String
  | .exprStmt e =>
      let r := transpileExpression rules ind e
      r.1 ++ [tryReplace rules r.2]
  | .ifStmt cond thenB elseB =>
      let rc := transpileExpression rules ind cond
      let elseLines : List String :=
        match elseB with
        | some els => ["else:"] ++ indent4 (transpileStmts rules 4 els)
        | none => []
      rc.1 ++ ["if (" ++ tryReplace rules rc.2 ++ "):"]
        ++ indent4 (transpileStmts rules 4 thenB) ++ elseLines
  | .whileStmt cond body =>
      let rc := transpileExpression rules ind cond
      rc.1 ++ ["while (" ++ rc.2 ++ "):"] ++ indent4 (transpileStmts rules 4 body)
  | .forStmt init cond update body =>
      let initLines : List String :=
        match init with
        | some ie =>
            let ri := transpileExpression rules ind ie
            ri.1 ++ [ri.2]
        | none => []
      let headerLines : List String :=
        match cond with
        | some ce =>
            let rc := transpileExpression rules ind ce
            rc.1 ++ ["while (" ++ rc.2 ++ "):"]
        | none => ["while True:"]
      let bodyLines := indent4 (transpileStmts rules 4 body)
      let updateLines : List String :=
        match update with
        | some ue =>
            -- transpiled after `self._indentations.append(4)`; the text is
            -- then indented by `self._indent`
            let ru := transpileExpression rules 4 ue
            ru.1 ++ indent4 [ru.2]
        | none => []
      initLines ++ headerLines ++ bodyLines ++ updateLines

/-- The statement loop of `_transpile_to_python` over a statement list. -/
def transpileStmts (rules : RuleList) (ind : Nat) : List CStmt → List String
  | [] => []
  | s :: rest => transpileStmt rules ind s ++ transpileStmts rules ind rest
end

/-!
## Support lemmas
-/

/-- The dead unit-local-constants membership test is false on every
list. -/
theorem strInCConstantList_false (key : String)
    (cs : List (String × PECValue)) : strInCConstantList key cs = false := by
  simp [strInCConstantList]

theorem foldl_removeSideEffectsCopy (l : List AsdictObj) (st : EvalState) :
    l.foldl removeSideEffectsCopy st = st := by
  induction l with
  | nil => rfl
  | cons h t ih => cases h; exact ih

/-- Because `asdict` hands `_remove_side_effects` only non-dataclass copies,
`_walk_remove_side_effect` reduces to retracting the value itself. -/
theorem walkRemoveSideEffect_eq (st : EvalState) (v : PECValue) :
    walkRemoveSideEffect st v = removeSideEffects st v := by
  cases v
  case pe node =>
    show removeSideEffects ((asdictChildren node).foldl removeSideEffectsCopy st) (.pe node) =
      removeSideEffects st (.pe node)
    rw [foldl_removeSideEffectsCopy]
  all_goals rfl

/-- `_remove_side_effects` touches only `_potential_side_effects` and the
contents (not the length) of `_evaluated`. -/
theorem removeSideEffects_preserved (st : EvalState) (v : PECValue) :
    (removeSideEffects st v).constants = st.constants ∧
    (removeSideEffects st v).currentConstants = st.currentConstants ∧
    (removeSideEffects st v).lisp_symbols = st.lisp_symbols ∧
    (removeSideEffects st v).c_variables = st.c_variables ∧
    (removeSideEffects st v).lisp_functions = st.lisp_functions ∧
    (removeSideEffects st v).lisp_variables = st.lisp_variables ∧
    (removeSideEffects st v).static_variables = st.static_variables ∧
    (removeSideEffects st v).extra_globals = st.extra_globals ∧
    (removeSideEffects st v).lispsymList = st.lispsymList ∧
    (removeSideEffects st v).local_variables = st.local_variables ∧
    (removeSideEffects st v).env = st.env ∧
    (removeSideEffects st v).nextId = st.nextId ∧
    (removeSideEffects st v).evaluated.length = st.evaluated.length := by
  cases v
  case pe node =>
    have h : removeSideEffects st (.pe node) =
        match pendingPop st.pending node.peId with
        | (some i, p) => { st with pending := p, evaluated := st.evaluated.set i none }
        | (none, _) => st := rfl
    rcases hp : pendingPop st.pending node.peId with ⟨oi, p⟩
    cases oi <;> simp [h, hp]
  all_goals exact ⟨rfl, rfl, rfl, rfl, rfl, rfl, rfl, rfl, rfl, rfl, rfl, rfl, rfl⟩

/-- `_walk_remove_side_effect` likewise. -/
theorem walkRemoveSideEffectVal_preserved (st : EvalState) (v : PyVal) :
    (walkRemoveSideEffectVal st v).constants = st.constants ∧
    (walkRemoveSideEffectVal st v).currentConstants = st.currentConstants ∧
    (walkRemoveSideEffectVal st v).lisp_symbols = st.lisp_symbols ∧
    (walkRemoveSideEffectVal st v).c_variables = st.c_variables ∧
    (walkRemoveSideEffectVal st v).lisp_functions = st.lisp_functions ∧
    (walkRemoveSideEffectVal st v).lisp_variables = st.lisp_variables ∧
    (walkRemoveSideEffectVal st v).static_variables = st.static_variables ∧
    (walkRemoveSideEffectVal st v).extra_globals = st.extra_globals ∧
    (walkRemoveSideEffectVal st v).lispsymList = st.lispsymList ∧
    (walkRemoveSideEffectVal st v).local_variables = st.local_variables ∧
    (walkRemoveSideEffectVal st v).env = st.env ∧
    (walkRemoveSideEffectVal st v).nextId = st.nextId ∧
    (walkRemoveSideEffectVal st v).evaluated.length = st.evaluated.length := by
  cases v
  case val pv =>
    have hv : walkRemoveSideEffectVal st (.val pv) = removeSideEffects st pv := by
      show walkRemoveSideEffect st pv = removeSideEffects st pv
      exact walkRemoveSideEffect_eq st pv
    rw [hv]
    exact removeSideEffects_preserved st pv
  all_goals exact ⟨rfl, rfl, rfl, rfl, rfl, rfl, rfl, rfl, rfl, rfl, rfl, rfl, rfl⟩

/-- Looking up the key just stored by `assocSet` (replacement case). -/
theorem lookup_map_replace {α : Type} (k : String) (v : α) :
    ∀ (m : List (String × α)), m.any (fun p => p.1 == k) = true →
      (m.map (fun p => if p.1 == k then (k, v) else p)).lookup k = some v := by
  intro m
  induction m with
  | nil => intro h; simp at h
  | cons a t ih =>
      obtain ⟨a1, a2⟩ := a
      intro h
      by_cases ha : a1 = k
      · subst ha
        rw [List.map_cons]
        have hhead : (if (((a1, a2) : String × α).1 == a1) = true
            then (a1, v) else (a1, a2)) = (a1, v) := by simp
        rw [hhead, List.lookup_cons_self]
      · have ha' : (a1 == k) = false := beq_eq_false_iff_ne.mpr ha
        have hk : (k == a1) = false := beq_eq_false_iff_ne.mpr (fun e => ha e.symm)
        simp only [List.any_cons, ha', Bool.false_or] at h
        rw [List.map_cons]
        have hhead : (if (((a1, a2) : String × α).1 == k) = true
            then (k, v) else (a1, a2)) = (a1, a2) := by simp [ha']
        rw [hhead, List.lookup_cons]
        simpa [hk] using ih h

/-- Looking up the key just stored by `assocSet` (append case). -/
theorem lookup_append_single {α : Type} (k : String) (v : α) :
    ∀ (m : List (String × α)), m.any (fun p => p.1 == k) = false →
      (m ++ [(k, v)]).lookup k = some v := by
  intro m
  induction m with
  | nil => simp [List.lookup]
  | cons a t ih =>
      intro h
      simp only [List.any_cons, Bool.or_eq_false_iff] at h
      have hk : (k == a.1) = false :=
        beq_eq_false_iff_ne.mpr (fun e => (beq_eq_false_iff_ne.mp h.1) e.symm)
      rcases a with ⟨a1, a2⟩
      rw [List.cons_append]
      simp [List.lookup_cons, hk, ih h.2]

/-- A `dict` store is visible to the next lookup of the same key. -/
theorem lookup_assocSet {α : Type} (m : List (String × α)) (k : String) (v : α) :
    (assocSet m k v).lookup k = some v := by
  unfold assocSet
  by_cases H : m.any (fun p => p.1 == k) = true
  · simp only [H, if_true]
    exact lookup_map_replace k v m H
  · rw [Bool.not_eq_true] at H
    simp only [H, Bool.false_eq_true, if_false]
    exact lookup_append_single k v m H

/-- `_remove_side_effects` either leaves a trace slot alone or blanks it. -/
theorem removeSideEffects_blank_or_same (st : EvalState) (v : PECValue) (j : Nat) :
    (removeSideEffects st v).evaluated[j]? = st.evaluated[j]? ∨
    (removeSideEffects st v).evaluated[j]? = some none := by
  cases v
  case pe node =>
    have h : removeSideEffects st (.pe node) =
        match pendingPop st.pending node.peId with
        | (some i, p) => { st with pending := p, evaluated := st.evaluated.set i none }
        | (none, _) => st := rfl
    rcases hp : pendingPop st.pending node.peId with ⟨oi, p⟩
    cases oi with
    | none => rw [h, hp]; left; rfl
    | some i =>
        rw [h, hp]
        by_cases hij : i = j
        · subst hij
          rcases hli : st.evaluated[i]? with _ | x
          · left; simp [List.getElem?_set_self', hli]
          · right; simp [List.getElem?_set_self', hli]
        · left; simp [List.getElem?_set_ne hij]
  all_goals left; rfl

/-- `_walk_remove_side_effect` is the identity on non-dataclass values. -/
theorem walkRemove_nondataclass (st : EvalState) (v : PyVal)
    (h : v.is_dataclass = false) : walkRemoveSideEffectVal st v = st := by
  cases v
  case val pv =>
    cases pv
    case pe node => simp [PyVal.is_dataclass, PECValue.is_dataclass] at h
    all_goals rfl
  all_goals rfl

/-- The completely empty evaluator state (used to instantiate witnesses). -/
def emptyState : EvalState :=
  { constants := [], currentConstants := [], lisp_symbols := [], c_variables := [],
    lisp_functions := [], lisp_variables := [], static_variables := [],
    extra_globals := [], lispsymList := [], local_variables := [], env := [],
    evaluated := [], pending := [], nextId := 0 }

/-- A source file with no extracted facts. -/
def emptyFile : FileContents :=
  { lisp_variables := [], c_variables := [], constants := [], functions := [] }

/-!
## Claims
-/

/-- **C3** — For every declared variable, once its default value has been
set, every later assignment to it appends an explicit declared-variable
assignment node to the trace and leaves the stored default (indeed the whole
declared-variable catalog) unchanged; the default field is never rewritten
by a later assignment. -/
theorem C3_default_written_at_most_once (st0 : EvalState) (key : String)
    (var : LispVariable) (value : PyVal) (d v : PECValue)
    (hvar : st0.lisp_variables.lookup key = some var)
    (hd : var.init_value = some d)
    (hv : value.asPEC = .ok v) :
    ∃ st', setItem st0 key value = .ok st' ∧
      st'.lisp_variables = st0.lisp_variables ∧
      st'.lisp_variables.lookup key = some var ∧
      st'.evaluated = (walkRemoveSideEffectVal st0 value).evaluated ++
        [some (.PELispVariableAssignment st0.nextId var.lisp_name v)] := by
  obtain ⟨-, -, -, -, -, h6, -, -, -, -, -, h12, -⟩ :=
    walkRemoveSideEffectVal_preserved st0 value
  simp only [setItem, h6, hvar, hd, Option.isNone_some, Bool.false_eq_true, if_false,
    setItemLispAssign, hv, EvalState.fresh]
  exact ⟨_, rfl, by simp [h6], by simp [h6, hvar], by simp [h12]⟩

/-- Witness for C3: a declared integer variable whose default is already `1`
is assigned the literal `2`; an explicit assignment node is appended and the
stored default is untouched. -/
theorem C3_default_written_at_most_once_witness :
    ∃ st', setItem { emptyState with
        lisp_variables := [("Vfoo", ⟨"foo", "Vfoo", "INT", some (.vInt 1)⟩)] }
        "Vfoo" (.val (.vInt 2)) = .ok st' ∧
      st'.lisp_variables = ({ emptyState with
        lisp_variables := [("Vfoo", ⟨"foo", "Vfoo", "INT", some (.vInt 1)⟩)] } :
          EvalState).lisp_variables ∧
      st'.lisp_variables.lookup "Vfoo" = some ⟨"foo", "Vfoo", "INT", some (.vInt 1)⟩ ∧
      st'.evaluated = (walkRemoveSideEffectVal { emptyState with
        lisp_variables := [("Vfoo", ⟨"foo", "Vfoo", "INT", some (.vInt 1)⟩)] }
        (.val (.vInt 2))).evaluated ++
        [some (.PELispVariableAssignment ({ emptyState with
          lisp_variables := [("Vfoo", ⟨"foo", "Vfoo", "INT", some (.vInt 1)⟩)] } :
            EvalState).nextId "foo" (.vInt 2))] :=
  C3_default_written_at_most_once _ "Vfoo" _ (.val (.vInt 2)) (.vInt 1) (.vInt 2)
    rfl rfl rfl

/-- **C10 counterexample** — the claim asserts that assigning a Symbol
reference to a routine-local name leaves the evaluated trace unchanged.  For
`x = intern("foo")` the `intern` rewrite registers the fresh symbol as a
pending effect (one trace slot); the assignment to the local `x` then blanks
that slot, so the trace is not left unchanged: the retained trace of the
assignment statement is empty, while the same call evaluated as a bare
expression statement retains the symbol. -/
theorem C10_counterexample :
    evaluate [] [emptyFile] emptyFile [] 5
        (.assignName "x" (.call "intern" [.lit (.vStr "foo")])) = .ok [] ∧
    evaluate [] [emptyFile] emptyFile [] 5
        (.exprStmt (.call "intern" [.lit (.vStr "foo")])) = .ok [.PELispSymbol 0 "foo"] ∧
    (execStmt 5 (initEval [] [emptyFile] emptyFile [])
        (.assignName "x" (.call "intern" [.lit (.vStr "foo")]))).map
      (fun st => (st.evaluated, st.env.lookup "x")) =
      .ok ([none], some (.val (.pe (.PELispSymbol 0 "foo")))) := ⟨rfl, rfl, rfl⟩

/-- **C10 (amended)** — Assigning a Symbol reference to a routine-local name
appends nothing to the trace: the symbol is recorded in the local
environment only (so a subsequent read of that local resolves to the
symbol), the trace keeps its length, and the only possible trace effect of
the assignment is the blanking of the symbol's own pending-effect slot —
the retraction `__setitem__` performs for every assigned value — never a
new entry. -/
theorem C10_local_symbol_assignment (st : EvalState) (key : String)
    (n : Nat) (s : String)
    (hl : st.lisp_variables.lookup key = none)
    (hc : st.c_variables.contains key = false) :
    ∃ st', setItem st key (.val (.pe (.PELispSymbol n s))) = .ok st' ∧
      st'.env = assocSet st.env key (.val (.pe (.PELispSymbol n s))) ∧
      st'.evaluated =
        (walkRemoveSideEffectVal st (.val (.pe (.PELispSymbol n s)))).evaluated ∧
      st'.evaluated.length = st.evaluated.length ∧
      (∀ j : Nat, st'.evaluated[j]? = st.evaluated[j]? ∨ st'.evaluated[j]? = some none) ∧
      st'.local_variables.contains key = true ∧
      nameLookup st' key = .ok (.val (.pe (.PELispSymbol n s)), st') := by
  obtain ⟨-, -, -, h4, -, h6, -, -, -, h10, h11, -, h13⟩ :=
    walkRemoveSideEffectVal_preserved st (.val (.pe (.PELispSymbol n s)))
  have hwalk : walkRemoveSideEffectVal st (.val (.pe (.PELispSymbol n s))) =
      removeSideEffects st (.pe (.PELispSymbol n s)) := by
    show walkRemoveSideEffect st (.pe (.PELispSymbol n s)) = _
    exact walkRemoveSideEffect_eq st _
  simp only [setItem, h6, hl, h4, hc, Bool.false_eq_true, if_false,
    PyVal.is_dataclass, PECValue.is_dataclass, PyVal.isLispSymbol,
    PECValue.isLispSymbol, Bool.not_true, Bool.and_false]
  refine ⟨_, rfl, ?_, rfl, ?_, ?_, ?_, ?_⟩
  · simp [h11]
  · exact h13
  · intro j
    rw [hwalk]
    exact removeSideEffects_blank_or_same st _ j
  · by_cases hm : key ∈ (walkRemoveSideEffectVal st
        (.val (.pe (.PELispSymbol n s)))).local_variables
    · simp [hm]
    · simp [hm]
  · show nameLookup _ key = _
    unfold nameLookup
    rw [lookup_assocSet]

/-- Witness for the amended C10. -/
theorem C10_local_symbol_assignment_witness :
    ∃ st', setItem emptyState "x" (.val (.pe (.PELispSymbol 3 "foo"))) = .ok st' ∧
      st'.env = assocSet emptyState.env "x" (.val (.pe (.PELispSymbol 3 "foo"))) ∧
      st'.evaluated =
        (walkRemoveSideEffectVal emptyState
          (.val (.pe (.PELispSymbol 3 "foo")))).evaluated ∧
      st'.evaluated.length = emptyState.evaluated.length ∧
      (∀ j : Nat, st'.evaluated[j]? = emptyState.evaluated[j]? ∨
        st'.evaluated[j]? = some none) ∧
      st'.local_variables.contains "x" = true ∧
      nameLookup st' "x" = .ok (.val (.pe (.PELispSymbol 3 "foo")), st') :=
  C10_local_symbol_assignment emptyState "x" 3 "foo" rfl rfl

/-- A file declaring one integer-kind Lisp variable `Vfoo` with no default. -/
def C2file : FileContents :=
  { lisp_variables := [⟨"foo", "Vfoo", "INT", none⟩], c_variables := [],
    constants := [], functions := [] }

/-- **C2 counterexample** — the claim asserts that `Vfoo = make_fixnum(42)`
(an integer-kind declared variable with no default yet) stores default `42`
and emits no assignment statement, because boxed-integer constructors are
unwrapped.  `_to_simple` performs no such unwrapping: the run emits an
explicit assignment of the `make_fixnum` call and leaves the default
unset. -/
theorem C2_counterexample :
    (execStmt 5 (initEval [] [C2file] C2file [])
        (.assignName "Vfoo" (.call "make_fixnum" [.lit (.vInt 42)]))).map
      (fun st => (finalTrace st.evaluated, st.lisp_variables.lookup "Vfoo")) =
    .ok ([.PELispVariableAssignment 1 "foo"
            (.pe (.PECFunctionCall 0 "make_fixnum" [.vInt 42]))],
         some ⟨"foo", "Vfoo", "INT", none⟩) := rfl

/-- The values `_to_simple` recognizes as foldable, per its source: raw
Python ints, floats and bools, and the canonical `'t'`/`'nil'` symbol
atoms — nothing else (in particular no boxed-constructor call). -/
def foldableLiteral : PECValue → Prop
  | .vInt _ => True
  | .vFloat _ => True
  | .vBool _ => True
  | .pe (.PELispSymbol _ name) => name = "t" ∨ name = "nil"
  | _ => False

/-- **C2 (amended)** — For an assignment to a declared variable with no
default yet: the assigned value folds into the permanent default (with no
emitted statement) exactly when it is a raw int/float/bool or a `'t'`/`'nil'`
symbol atom — the only unwrapping `_to_simple` performs; a boxed-constructor
call such as `make_fixnum(42)` is not unwrapped: it leaves the default unset
and appends an explicit declared-variable assignment node. -/
theorem C2_default_folds_only_raw_literals :
    (∀ pv : PECValue, (toSimple pv).2 = true ↔ foldableLiteral pv) ∧
    (∀ (st : EvalState) (key : String) (var : LispVariable) (pv sv : PECValue),
      st.lisp_variables.lookup key = some var → var.init_value = none →
      toSimple pv = (sv, true) →
      ∃ st', setItem st key (.val pv) = .ok st' ∧
        st'.lisp_variables =
          assocSet st.lisp_variables key ({ var with init_value := some sv }) ∧
        st'.evaluated = (walkRemoveSideEffectVal st (.val pv)).evaluated) ∧
    (∀ (st : EvalState) (key : String) (var : LispVariable) (i : Nat)
        (c : String) (a : List PECValue),
      st.lisp_variables.lookup key = some var → var.init_value = none →
      ∃ st', setItem st key (.val (.pe (.PECFunctionCall i c a))) = .ok st' ∧
        st'.lisp_variables = st.lisp_variables ∧
        st'.evaluated =
          (walkRemoveSideEffectVal st (.val (.pe (.PECFunctionCall i c a)))).evaluated ++
          [some (.PELispVariableAssignment st.nextId var.lisp_name
            (.pe (.PECFunctionCall i c a)))]) := by
  refine ⟨?_, ?_, ?_⟩
  · intro pv
    cases pv
    case pe node =>
      cases node
      case PELispSymbol i name =>
        by_cases ht : name = "t"
        · subst ht; simp [toSimple, foldableLiteral]
        · by_cases hn : name = "nil"
          · subst hn; simp [toSimple, foldableLiteral]
          · have ht' : (name == "t") = false := beq_eq_false_iff_ne.mpr ht
            have hn' : (name == "nil") = false := beq_eq_false_iff_ne.mpr hn
            simp [toSimple, foldableLiteral, ht', hn', ht, hn]
      all_goals simp [toSimple, foldableLiteral]
    all_goals simp [toSimple, foldableLiteral]
  · intro st key var pv sv hvar hinit hsimple
    obtain ⟨-, -, -, -, -, h6, -, -, -, -, -, h12, -⟩ :=
      walkRemoveSideEffectVal_preserved st (.val pv)
    simp only [setItem, h6, hvar, hinit, Option.isNone_none, if_true, hsimple,
      EvalState.fresh]
    exact ⟨_, rfl, by simp [h6], rfl⟩
  · intro st key var i c a hvar hinit
    obtain ⟨-, -, -, -, -, h6, -, -, -, -, -, h12, -⟩ :=
      walkRemoveSideEffectVal_preserved st (.val (.pe (.PECFunctionCall i c a)))
    simp only [setItem, h6, hvar, hinit, Option.isNone_none, if_true, toSimple,
      setItemLispAssign, PyVal.asPEC, EvalState.fresh]
    exact ⟨_, rfl, by simp [h6], by simp [h12]⟩

/-- Witness for the amended C2: the literal `42` folds into `Vbar`'s default
with nothing emitted; `make_fixnum(42)` does not fold for `Vfoo`. -/
theorem C2_default_folds_only_raw_literals_witness :
    ((toSimple (.vInt 42)).2 = true ↔ foldableLiteral (.vInt 42)) ∧
    (∃ st', setItem { emptyState with
        lisp_variables := [("Vbar", ⟨"bar", "Vbar", "INT", none⟩)] }
        "Vbar" (.val (.vInt 42)) = .ok st' ∧
      st'.lisp_variables = assocSet [("Vbar", ⟨"bar", "Vbar", "INT", none⟩)]
        "Vbar" ⟨"bar", "Vbar", "INT", some (.vInt 42)⟩ ∧
      st'.evaluated = (walkRemoveSideEffectVal { emptyState with
        lisp_variables := [("Vbar", ⟨"bar", "Vbar", "INT", none⟩)] }
        (.val (.vInt 42))).evaluated) ∧
    (∃ st', setItem { emptyState with
        lisp_variables := [("Vfoo", ⟨"foo", "Vfoo", "INT", none⟩)] }
        "Vfoo" (.val (.pe (.PECFunctionCall 7 "make_fixnum" [.vInt 42]))) = .ok st' ∧
      st'.lisp_variables = [("Vfoo", ⟨"foo", "Vfoo", "INT", none⟩)] ∧
      st'.evaluated = (walkRemoveSideEffectVal { emptyState with
        lisp_variables := [("Vfoo", ⟨"foo", "Vfoo", "INT", none⟩)] }
        (.val (.pe (.PECFunctionCall 7 "make_fixnum" [.vInt 42])))).evaluated ++
        [some (.PELispVariableAssignment 0 "foo"
          (.pe (.PECFunctionCall 7 "make_fixnum" [.vInt 42])))]) :=
  ⟨C2_default_folds_only_raw_literals.1 (.vInt 42),
   C2_default_folds_only_raw_literals.2.1
     { emptyState with lisp_variables := [("Vbar", ⟨"bar", "Vbar", "INT", none⟩)] }
     "Vbar" ⟨"bar", "Vbar", "INT", none⟩ (.vInt 42) (.vInt 42) rfl rfl rfl,
   C2_default_folds_only_raw_literals.2.2
     { emptyState with lisp_variables := [("Vfoo", ⟨"foo", "Vfoo", "INT", none⟩)] }
     "Vfoo" ⟨"foo", "Vfoo", "INT", none⟩ 7 "make_fixnum" [.vInt 42] rfl rfl⟩

/-- A state holding one declared integer variable whose default is already
`42`. -/
def C5state : EvalState :=
  { emptyState with lisp_variables := [("Vfoo", ⟨"foo", "Vfoo", "INT", some (.vInt 42)⟩)] }

/-- **C5 counterexample** — the claim asserts that once a default has been
set, resolving the declared variable yields its current value.  With the
default already `42`, `__missing__` still returns the type-directed zero
`0`: the stored default is never consulted. -/
theorem C5_counterexample :
    nameLookup C5state "Vfoo" = .ok (.val (.vInt 0), C5state) ∧
    (C5state.lisp_variables.lookup "Vfoo").map LispVariable.init_value =
      some (some (.vInt 42)) ∧
    (PECValue.vInt 0) ≠ .vInt 42 :=
  ⟨rfl, rfl, by simp⟩

/-- **C5 (amended)** — A reference to a declared variable name not
previously assigned within the current routine resolves purely by the
variable's type kind, regardless of any stored default: boolean-backed →
`False`, integer-backed → `0`, opaque composite kinds → a fresh
Declared-variable reference. -/
theorem C5_declared_variable_resolution (st : EvalState) (key : String)
    (var : LispVariable)
    (henv : st.env.lookup key = none)
    (h1 : st.constants.lookup key = none)
    (h2 : st.currentConstants.lookup key = none)
    (h3 : st.lisp_symbols.lookup key = none)
    (h4 : st.c_variables.contains key = false)
    (h5 : st.lisp_functions.lookup key = none)
    (h6 : key ≠ "void")
    (h7 : PE_UTIL_FUNCTION_NAMES.contains key = false)
    (h8 : PE_C_FUNCTIONS.contains key = false)
    (hv : st.lisp_variables.lookup key = some var) :
    (var.lisp_type = "BOOL" → nameLookup st key = .ok (.val (.vBool false), st)) ∧
    (var.lisp_type = "INT" → nameLookup st key = .ok (.val (.vInt 0), st)) ∧
    (var.lisp_type ≠ "BOOL" → var.lisp_type ≠ "INT" →
      nameLookup st key = .ok (.val (.pe (.PELispVariable st.nextId var.lisp_name)),
        { st with nextId := st.nextId + 1 })) := by
  have h6' : (key == "void") = false := beq_eq_false_iff_ne.mpr h6
  refine ⟨?_, ?_, ?_⟩
  · intro hb
    have hb' : (var.lisp_type == "BOOL") = true := beq_iff_eq.mpr hb
    simp only [nameLookup, henv, missingLookup, strInCConstantList_false,
      Bool.false_eq_true, h1, h2, h3, h4, h5, h6', h7, h8,
      hv, hb', Bool.false_eq_true, if_false, if_true]
  · intro hi
    have hi' : (var.lisp_type == "INT") = true := beq_iff_eq.mpr hi
    have hb' : (var.lisp_type == "BOOL") = false := by
      refine beq_eq_false_iff_ne.mpr ?_
      intro e
      rw [e] at hi
      exact absurd hi (by decide)
    simp only [nameLookup, henv, missingLookup, strInCConstantList_false,
      Bool.false_eq_true, h1, h2, h3, h4, h5, h6', h7, h8,
      hv, hi', hb', Bool.false_eq_true, if_false, if_true]
  · intro hb hi
    have hb' : (var.lisp_type == "BOOL") = false := beq_eq_false_iff_ne.mpr hb
    have hi' : (var.lisp_type == "INT") = false := beq_eq_false_iff_ne.mpr hi
    simp only [nameLookup, henv, missingLookup, strInCConstantList_false,
      Bool.false_eq_true, h1, h2, h3, h4, h5, h6', h7, h8,
      hv, hb', hi', Bool.false_eq_true, if_false, EvalState.fresh]

/-- Witness for the amended C5: three declared variables of the three kinds
resolve to `False`, `0`, and a Declared-variable reference. -/
theorem C5_declared_variable_resolution_witness :
    nameLookup { emptyState with
      lisp_variables := [("Vb", ⟨"b", "Vb", "BOOL", none⟩)] } "Vb" =
      .ok (.val (.vBool false), { emptyState with
        lisp_variables := [("Vb", ⟨"b", "Vb", "BOOL", none⟩)] }) ∧
    nameLookup { emptyState with
      lisp_variables := [("Vi", ⟨"i", "Vi", "INT", none⟩)] } "Vi" =
      .ok (.val (.vInt 0), { emptyState with
        lisp_variables := [("Vi", ⟨"i", "Vi", "INT", none⟩)] }) ∧
    nameLookup { emptyState with
      lisp_variables := [("Vl", ⟨"l", "Vl", "LISP", none⟩)] } "Vl" =
      .ok (.val (.pe (.PELispVariable 0 "l")),
        { ({ emptyState with
          lisp_variables := [("Vl", ⟨"l", "Vl", "LISP", none⟩)] } : EvalState) with
          nextId := 1 }) :=
  ⟨(C5_declared_variable_resolution
      { emptyState with lisp_variables := [("Vb", ⟨"b", "Vb", "BOOL", none⟩)] }
      "Vb" ⟨"b", "Vb", "BOOL", none⟩ rfl rfl rfl rfl rfl rfl (by decide)
      rfl rfl rfl).1 rfl,
   (C5_declared_variable_resolution
      { emptyState with lisp_variables := [("Vi", ⟨"i", "Vi", "INT", none⟩)] }
      "Vi" ⟨"i", "Vi", "INT", none⟩ rfl rfl rfl rfl rfl rfl (by decide)
      rfl rfl rfl).2.1 rfl,
   (C5_declared_variable_resolution
      { emptyState with lisp_variables := [("Vl", ⟨"l", "Vl", "LISP", none⟩)] }
      "Vl" ⟨"l", "Vl", "LISP", none⟩ rfl rfl rfl rfl rfl rfl (by decide)
      rfl rfl rfl).2.2 (by decide) (by decide)⟩

theorem mem_foldl_append {β : Type} (g : β → List String) :
    ∀ (files : List β) (acc : List String) (x : String),
      x ∈ files.foldl (fun l f => l ++ g f) acc ↔
        x ∈ acc ∨ ∃ f, f ∈ files ∧ x ∈ g f := by
  intro files
  induction files with
  | nil => intro acc x; simp
  | cons a t ih =>
      intro acc x
      rw [List.foldl_cons, ih]
      constructor
      · rintro (h | h)
        · rcases List.mem_append.mp h with h' | h'
          · exact Or.inl h'
          · exact Or.inr ⟨a, List.mem_cons_self a t, h'⟩
        · rcases h with ⟨f, hf, hx⟩
          exact Or.inr ⟨f, List.mem_cons_of_mem a hf, hx⟩
      · rintro (h | ⟨f, hf, hx⟩)
        · exact Or.inl (List.mem_append.mpr (Or.inl h))
        · rcases List.mem_cons.mp hf with rfl | hf'
          · exact Or.inl (List.mem_append.mpr (Or.inr hx))
          · exact Or.inr ⟨f, hf', hx⟩

/-- **C9** — Static (unit-local) raw globals are excluded from
`self.c_variables` at catalog build time, so assigning to one goes through
the function-local path of `__setitem__`: the name joins the local-variable
set; a structured non-symbol value is emitted as a raw-global assignment
node with the function-local flag `True`; a native-literal value emits
nothing.  Only names in `self.c_variables` (the non-static globals) are
emitted as program-global raw-global assignments (flag `False`). -/
theorem C9_static_globals_take_local_path :
    (∀ (all_symbols : List LispSymbol) (files : List FileContents)
        (cur : FileContents) (extra : List (String × PyVal)) (name : String),
      name ∈ (initEval all_symbols files cur extra).c_variables ↔
        ∃ f, f ∈ files ∧ ∃ v, (v ∈ f.c_variables ∧ v.static = false) ∧
          v.c_name = name) ∧
    (∀ (st : EvalState) (key : String) (node : PEValue),
      st.lisp_variables.lookup key = none →
      st.c_variables.contains key = false →
      PyVal.isLispSymbol (.val (.pe node)) = false →
      ∃ st', setItem st key (.val (.pe node)) = .ok st' ∧
        key ∈ st'.local_variables ∧
        st'.evaluated = (walkRemoveSideEffectVal st (.val (.pe node))).evaluated ++
          [some (.PECVariableAssignment (st.nextId + 1) key (.pe node) true)]) ∧
    (∀ (st : EvalState) (key : String) (value : PyVal),
      st.lisp_variables.lookup key = none →
      st.c_variables.contains key = false →
      value.is_dataclass = false →
      ∃ st', setItem st key value = .ok st' ∧
        key ∈ st'.local_variables ∧ st'.evaluated = st.evaluated) ∧
    (∀ (st : EvalState) (key : String) (value : PyVal) (v : PECValue),
      st.lisp_variables.lookup key = none →
      st.c_variables.contains key = true →
      value.asPEC = .ok v →
      ∃ st', setItem st key value = .ok st' ∧
        st'.evaluated = (walkRemoveSideEffectVal st value).evaluated ++
          [some (.PECVariableAssignment st.nextId key v false)]) := by
  refine ⟨?_, ?_, ?_, ?_⟩
  · intro all_symbols files cur extra name
    show name ∈ files.foldl
      (fun l f => l ++ (f.c_variables.filter (fun v => !v.static)).map
        (fun v => v.c_name)) [] ↔ _
    rw [mem_foldl_append]
    simp [List.mem_map, List.mem_filter, Bool.not_eq_true']
  · intro st key node hl hc hsym
    obtain ⟨-, -, -, h4, -, h6, -, -, -, h10, -, h12, -⟩ :=
      walkRemoveSideEffectVal_preserved st (.val (.pe node))
    simp only [setItem, h6, hl, h4, hc, Bool.false_eq_true, if_false,
      PyVal.is_dataclass, PECValue.is_dataclass, hsym, Bool.not_false,
      Bool.and_true, if_true, PyVal.asPEC, EvalState.fresh]
    refine ⟨_, rfl, ?_, ?_⟩
    · by_cases hm : key ∈ (walkRemoveSideEffectVal st (.val (.pe node))).local_variables
      · simp [hm]
      · simp [hm]
    · simp [h12]
  · intro st key value hl hc hd
    have hw : walkRemoveSideEffectVal st value = st := walkRemove_nondataclass st value hd
    simp only [setItem, hw, hl, hc, Bool.false_eq_true, if_false, hd,
      Bool.false_and]
    refine ⟨_, rfl, ?_, rfl⟩
    by_cases hm : key ∈ st.local_variables
    · simp [hm]
    · simp [hm]
  · intro st key value v hl hc hv
    obtain ⟨-, -, -, h4, -, h6, -, -, -, -, -, h12, -⟩ :=
      walkRemoveSideEffectVal_preserved st value
    simp only [setItem, h6, hl, h4, hc, if_true, hv, EvalState.fresh]
    exact ⟨_, rfl, by simp [h12]⟩

/-- A file with one static and one non-static raw global. -/
def C9file : FileContents :=
  { lisp_variables := [], c_variables := [⟨"svar", true⟩, ⟨"gvar", false⟩],
    constants := [], functions := [] }

/-- Witness for C9: a one-file catalog with a static `svar` and a non-static
`gvar`; `svar` is absent from `c_variables`, a composite assigned to it is
emitted function-local, a literal assigned to it is not emitted, and a
composite assigned to `gvar` is emitted program-global. -/
theorem C9_static_globals_take_local_path_witness :
    (¬ "svar" ∈ (initEval [] [C9file] emptyFile []).c_variables) ∧
    (∃ st', setItem { emptyState with c_variables := ["gvar"] } "svar"
        (.val (.pe (.PELispForm 9 "list" []))) = .ok st' ∧
      "svar" ∈ st'.local_variables ∧
      st'.evaluated = (walkRemoveSideEffectVal
          { emptyState with c_variables := ["gvar"] }
          (.val (.pe (.PELispForm 9 "list" [])))).evaluated ++
        [some (.PECVariableAssignment 1 "svar" (.pe (.PELispForm 9 "list" [])) true)]) ∧
    (∃ st', setItem { emptyState with c_variables := ["gvar"] } "svar"
        (.val (.vInt 5)) = .ok st' ∧
      "svar" ∈ st'.local_variables ∧
      st'.evaluated = ({ emptyState with c_variables := ["gvar"] } :
        EvalState).evaluated) ∧
    (∃ st', setItem { emptyState with c_variables := ["gvar"] } "gvar"
        (.val (.pe (.PELispForm 9 "list" []))) = .ok st' ∧
      st'.evaluated = (walkRemoveSideEffectVal
          { emptyState with c_variables := ["gvar"] }
          (.val (.pe (.PELispForm 9 "list" [])))).evaluated ++
        [some (.PECVariableAssignment 0 "gvar" (.pe (.PELispForm 9 "list" [])) false)]) := by
  refine ⟨?_, ?_, ?_, ?_⟩
  · decide
  · exact C9_static_globals_take_local_path.2.1
      { emptyState with c_variables := ["gvar"] } "svar" (.PELispForm 9 "list" [])
      rfl rfl rfl
  · exact C9_static_globals_take_local_path.2.2.1
      { emptyState with c_variables := ["gvar"] } "svar" (.val (.vInt 5))
      rfl rfl rfl
  · exact C9_static_globals_take_local_path.2.2.2
      { emptyState with c_variables := ["gvar"] } "gvar"
      (.val (.pe (.PELispForm 9 "list" []))) (.pe (.PELispForm 9 "list" []))
      rfl rfl rfl

/-- **C4 counterexample** — the claim lists the resolution tiers as: named
constants (global then unit-local), interned symbols, raw global bindings,
catalogued callables, recognized runtime helpers, declared variables,
injected per-routine overrides — and says that if every tier misses,
evaluation raises an error carrying the name.  The name `NULL` misses every
one of those tiers in the empty state, yet `__missing__` resolves it (to
`0`, from the built-in `_globals` table) instead of raising. -/
theorem C4_counterexample :
    missingLookup emptyState "NULL" = .ok (.val (.vInt 0), emptyState) ∧
    emptyState.constants.lookup "NULL" = none ∧
    emptyState.currentConstants.lookup "NULL" = none ∧
    emptyState.lisp_symbols.lookup "NULL" = none ∧
    emptyState.c_variables.contains "NULL" = false ∧
    emptyState.lisp_functions.lookup "NULL" = none ∧
    PE_UTIL_FUNCTION_NAMES.contains "NULL" = false ∧
    PE_C_FUNCTIONS.contains "NULL" = false ∧
    emptyState.lisp_variables.lookup "NULL" = none ∧
    emptyState.extra_globals.lookup "NULL" = none :=
  ⟨rfl, rfl, rfl, rfl, by decide, rfl, by decide, by decide, rfl, rfl⟩

/-!
The spec's §9 reimplementation note describes name resolution as an explicit
ordered list of resolver stages, each a pure function from a name to an
optional value, tried in priority order with first-success semantics.  The
following definitions state that model (one stage per tier of `__missing__`,
in the source's order) and the amended C4 proves `__missing__` equal to it.
-/

/-- One resolution stage: a name either resolves to a value (possibly
consuming a fresh identity) or misses. -/
def ResolverStage : Type := EvalState → String → Option (PyVal × EvalState)

/-- Tier 1: `self.constants`. -/
def resolveConstants : ResolverStage := fun st key =>
  (st.constants.lookup key).map (fun v => (.val v, st))

/-- Tier 2: the `key in self._current.constants` membership test is dead
code — `strInCConstantList` is always false, because the string key never
compares equal to a `CConstant` record — so this stage never resolves a
name. -/
def resolveCurrentConstants : ResolverStage := fun _ _ => none

/-- Tier 3: `self.lisp_symbols`. -/
def resolveSymbols : ResolverStage := fun st key =>
  (st.lisp_symbols.lookup key).map (fun lname =>
    let (n, st') := st.fresh
    (.val (.pe (.PELispSymbol n lname)), st'))

/-- Tier 4: `self.c_variables`. -/
def resolveCVariables : ResolverStage := fun st key =>
  if st.c_variables.contains key then
    let (n, st') := st.fresh
    some (.val (.pe (.PECVariable n key false)), st')
  else none

/-- Tier 5: `self.lisp_functions`. -/
def resolveLispFunctions : ResolverStage := fun st key =>
  (st.lisp_functions.lookup key).map (fun lname => (.lispFn lname, st))

/-- Tier 6: the `void` no-op. -/
def resolveVoid : ResolverStage := fun st key =>
  if key == "void" then some (.voidFn, st) else none

/-- Tier 7: `PE_UTIL_FUNCTIONS` rewrites. -/
def resolveUtilRewrites : ResolverStage := fun st key =>
  if PE_UTIL_FUNCTION_NAMES.contains key then some (.utilFn key, st) else none

/-- Tier 8: `PE_C_FUNCTIONS` generic primitive calls. -/
def resolveCPrimitives : ResolverStage := fun st key =>
  if PE_C_FUNCTIONS.contains key then some (.cFn key, st) else none

/-- Tier 9: `self.lisp_variables`. -/
def resolveLispVariables : ResolverStage := fun st key =>
  (st.lisp_variables.lookup key).map (fun v =>
    if v.lisp_type == "BOOL" then (.val (.vBool false), st)
    else if v.lisp_type == "INT" then (.val (.vInt 0), st)
    else
      let (n, st') := st.fresh
      (.val (.pe (.PELispVariable n v.lisp_name)), st'))

/-- Tier 10: `self._extra_globals` (the injected per-routine overrides). -/
def resolveExtraGlobals : ResolverStage := fun st key =>
  (st.extra_globals.lookup key).map (fun v => (v, st))

/-- Tier 11: `self._globals` (the evaluator's built-in globals). -/
def resolveBuiltinGlobals : ResolverStage := fun st key =>
  (globalsLookup st key).map (fun v => (v, st))

/-- First-success resolution over an ordered stage list. -/
def resolveFirst : List ResolverStage → EvalState → String → Option (PyVal × EvalState)
  | [], _, _ => none
  | s :: rest, st, key =>
      match s st key with
      | some r => some r
      | none => resolveFirst rest st key

/-- The fixed priority order of `__missing__`. -/
def resolutionOrder : List ResolverStage :=
  [resolveConstants, resolveCurrentConstants, resolveSymbols, resolveCVariables,
   resolveLispFunctions, resolveVoid, resolveUtilRewrites, resolveCPrimitives,
   resolveLispVariables, resolveExtraGlobals, resolveBuiltinGlobals]

/-- **C4 (amended)** — `__missing__` tries the tiers in the fixed priority
order — the merged named-constants table, the dead unit-local-constants
membership test (it compares the string key against `CConstant` records
and never succeeds), interned symbols, raw global bindings, catalogued
callables, the built-in `void` no-op, runtime-helper rewrites, generic
primitive calls, declared variables, injected per-routine overrides, and
finally the evaluator's built-in globals — stopping at the first tier that
succeeds; only when every one of those tiers misses does it raise
`KeyError` carrying the unresolved name. -/
theorem C4_resolution_first_match_wins (st : EvalState) (key : String) :
    missingLookup st key =
      match resolveFirst resolutionOrder st key with
      | some r => .ok r
      | none => .error key := by
  unfold missingLookup
  rw [strInCConstantList_false]
  cases h1 : st.constants.lookup key with
  | some v =>
      simp [resolveFirst, resolutionOrder, resolveConstants, h1]
  | none =>
  cases h3 : st.lisp_symbols.lookup key with
  | some lname =>
      simp [resolveFirst, resolutionOrder, resolveConstants,
        resolveCurrentConstants, resolveSymbols, strInCConstantList_false, h1, h3]
  | none =>
  by_cases h4 : key ∈ st.c_variables
  · simp [resolveFirst, resolutionOrder, resolveConstants,
      resolveCurrentConstants, resolveSymbols, resolveCVariables, strInCConstantList_false, h1, h3, h4]
  · cases h5 : st.lisp_functions.lookup key with
    | some lname =>
        simp [resolveFirst, resolutionOrder, resolveConstants,
          resolveCurrentConstants, resolveSymbols, resolveCVariables,
          resolveLispFunctions, strInCConstantList_false, h1, h3, h4, h5]
    | none =>
    by_cases h6 : key = "void"
    · subst h6
      simp [resolveFirst, resolutionOrder, resolveConstants,
        resolveCurrentConstants, resolveSymbols, resolveCVariables,
        resolveLispFunctions, resolveVoid, strInCConstantList_false, h1, h3, h4, h5]
    · have h6' : ¬ key = "void" := h6
      by_cases h7 : key ∈ PE_UTIL_FUNCTION_NAMES
      · simp [resolveFirst, resolutionOrder, resolveConstants,
          resolveCurrentConstants, resolveSymbols, resolveCVariables,
          resolveLispFunctions, resolveVoid, resolveUtilRewrites,
          strInCConstantList_false, h1, h3, h4, h5, h6', h7]
      · by_cases h8 : key ∈ PE_C_FUNCTIONS
        · simp [resolveFirst, resolutionOrder, resolveConstants,
            resolveCurrentConstants, resolveSymbols, resolveCVariables,
            resolveLispFunctions, resolveVoid, resolveUtilRewrites,
            resolveCPrimitives, strInCConstantList_false, h1, h3, h4, h5, h6', h7, h8]
        · cases h9 : st.lisp_variables.lookup key with
          | some v =>
              simp only [resolveFirst, resolutionOrder, resolveConstants,
                resolveCurrentConstants, resolveSymbols, resolveCVariables,
                resolveLispFunctions, resolveVoid, resolveUtilRewrites,
                resolveCPrimitives, resolveLispVariables,
                strInCConstantList_false, h1, h3, h4, h5, h6', h7, h8, h9]
              simp [h4, h6', h7, h8]
              split_ifs <;> rfl
          | none =>
          cases h10 : st.extra_globals.lookup key with
          | some v =>
              simp [resolveFirst, resolutionOrder, resolveConstants,
                resolveCurrentConstants, resolveSymbols, resolveCVariables,
                resolveLispFunctions, resolveVoid, resolveUtilRewrites,
                resolveCPrimitives, resolveLispVariables, resolveExtraGlobals,
                strInCConstantList_false, h1, h3, h4, h5, h6', h7, h8, h9, h10]
          | none =>
          cases h11 : globalsLookup st key with
          | some v =>
              simp [resolveFirst, resolutionOrder, resolveConstants,
                resolveCurrentConstants, resolveSymbols, resolveCVariables,
                resolveLispFunctions, resolveVoid, resolveUtilRewrites,
                resolveCPrimitives, resolveLispVariables, resolveExtraGlobals,
                resolveBuiltinGlobals, strInCConstantList_false, h1, h3, h4, h5,
                h6', h7, h8, h9, h10, h11]
          | none =>
              simp [resolveFirst, resolutionOrder, resolveConstants,
                resolveCurrentConstants, resolveSymbols, resolveCVariables,
                resolveLispFunctions, resolveVoid, resolveUtilRewrites,
                resolveCPrimitives, resolveLispVariables, resolveExtraGlobals,
                resolveBuiltinGlobals, strInCConstantList_false, h1, h3, h4, h5,
                h6', h7, h8, h9, h10, h11]

/-- The environment after `arr` and `i` have routine-local values: the shape
in which the transpiled `x = arr[i++]` / `x = arr[++i]` statements run. -/
def C7state (k : Nat) (xs : List PECValue) : EvalState :=
  { emptyState with env := [("arr", .val (.vList xs)), ("i", .val (.vInt k))] }

/-- The state after executing the synthesized `i += 1` statement from
`C7state`. -/
def C7state' (k : Nat) (xs : List PECValue) : EvalState :=
  { emptyState with
    local_variables := ["i"]
    env := [("arr", .val (.vList xs)), ("i", .val (.vInt ((k : Int) + 1)))] }

/-- **C7** — Normalizing `i++` emits the synthesized statement `i += 1`
before the enclosing statement and substitutes `i - 1` at the use site, so
the enclosing expression reads the pre-increment value; `++i` emits the
same statement and substitutes plain `i`, reading the post-increment value
(symmetrically `i--`/`--i` emit `i -= 1` with correction `+ 1`).  The last
two conjuncts execute the transpiled statements: after `i += 1`, the
postfix use site `arr[i - 1]` reads element `k` (the pre-increment index)
and the prefix use site `arr[i]` reads element `k + 1`. -/
theorem C7_update_expression_splitting :
    (∀ (rules : RuleList) (ind : Nat) (name : String),
      walkExpr rules ind (.update false true name) =
        ([indentStr ind ++ name ++ " += 1"], name ++ " - 1") ∧
      walkExpr rules ind (.update true true name) =
        ([indentStr ind ++ name ++ " += 1"], name) ∧
      walkExpr rules ind (.update false false name) =
        ([indentStr ind ++ name ++ " -= 1"], name ++ " + 1") ∧
      walkExpr rules ind (.update true false name) =
        ([indentStr ind ++ name ++ " -= 1"], name)) ∧
    (transpileStmt [] 0 (.exprStmt (.assignE (.ident "x")
        (.subscriptE (.ident "arr") (.update false true "i")))) =
      ["i += 1", "x=arr[i - 1]", "x"] ∧
     transpileStmt [] 0 (.exprStmt (.assignE (.ident "x")
        (.subscriptE (.ident "arr") (.update true true "i")))) =
      ["i += 1", "x=arr[i]", "x"]) ∧
    (∀ (k : Nat) (xs : List PECValue), k < xs.length →
      execStmt 1 (C7state k xs)
          (.assignName "i" (.bin .add (.name "i") (.lit (.vInt 1)))) =
        .ok (C7state' k xs) ∧
      (C7state' k xs).env.lookup "i" = some (.val (.vInt ((k : Int) + 1))) ∧
      evalExpr (C7state' k xs)
          (.subscript (.name "arr") (.bin .sub (.name "i") (.lit (.vInt 1)))) =
        .ok (.val (xs.getD k .vNone), C7state' k xs)) ∧
    (∀ (k : Nat) (xs : List PECValue), k + 1 < xs.length →
      evalExpr (C7state' k xs) (.subscript (.name "arr") (.name "i")) =
        .ok (.val (xs.getD (k + 1) .vNone), C7state' k xs)) := by
  have hupd : ∀ (rules : RuleList) (ind : Nat) (name : String),
      walkExpr rules ind (.update true true name) =
        ([indentStr ind ++ name ++ " += 1"], name) ∧
      walkExpr rules ind (.update true false name) =
        ([indentStr ind ++ name ++ " -= 1"], name) := by
    intro rules ind name
    constructor
    · show ([indentStr ind ++ name ++ " += 1"], name ++ "") = _
      rw [String.append_empty]
    · show ([indentStr ind ++ name ++ " -= 1"], name ++ "") = _
      rw [String.append_empty]
  refine ⟨fun rules ind name =>
      ⟨rfl, (hupd rules ind name).1, rfl, (hupd rules ind name).2⟩,
    ⟨rfl, rfl⟩, ?_, ?_⟩
  · intro k xs hk
    refine ⟨rfl, rfl, ?_⟩
    have hget : getIndex (.val (.vList xs)) (.val (.vInt ((k : Int) + 1 - 1))) =
        .ok (.val (xs.getD k .vNone)) := by
      have hidx : ((k : Int) + 1 - 1) = (k : Int) := by omega
      rw [hidx]
      have h0 : ¬ ((k : Int) < 0) := by omega
      simp only [getIndex, h0, if_false]
      rw [if_pos ⟨by omega, by simpa using hk⟩]
      simp
    have e1 : evalExpr (C7state' k xs)
        (.subscript (.name "arr") (.bin .sub (.name "i") (.lit (.vInt 1)))) =
        (match getIndex (.val (.vList xs)) (.val (.vInt ((k : Int) + 1 - 1))) with
        | .error e => .error e
        | .ok v => .ok (v, C7state' k xs)) := rfl
    rw [e1, hget]
  · intro k xs hk
    have hget : getIndex (.val (.vList xs)) (.val (.vInt ((k : Int) + 1))) =
        .ok (.val (xs.getD (k + 1) .vNone)) := by
      have hidx : ((k : Int) + 1) = ((k + 1 : Nat) : Int) := by omega
      rw [hidx]
      have h0 : ¬ (((k + 1 : Nat) : Int) < 0) := by omega
      simp only [getIndex, h0, if_false]
      rw [if_pos ⟨by omega, by simpa using hk⟩]
      simp
    have e1 : evalExpr (C7state' k xs) (.subscript (.name "arr") (.name "i")) =
        (match getIndex (.val (.vList xs)) (.val (.vInt ((k : Int) + 1))) with
        | .error e => .error e
        | .ok v => .ok (v, C7state' k xs)) := rfl
    rw [e1, hget]

/-- Witness for C7 at `k = 1`, `xs = [10, 20, 30]`: the postfix read yields
element 1 (`20`, the pre-increment index) and the prefix read element 2
(`30`). -/
theorem C7_update_expression_splitting_witness :
    (execStmt 1 (C7state 1 [.vInt 10, .vInt 20, .vInt 30])
        (.assignName "i" (.bin .add (.name "i") (.lit (.vInt 1)))) =
      .ok (C7state' 1 [.vInt 10, .vInt 20, .vInt 30]) ∧
      (C7state' 1 [.vInt 10, .vInt 20, .vInt 30]).env.lookup "i" =
        some (.val (.vInt (((1 : Nat) : Int) + 1))) ∧
      evalExpr (C7state' 1 [.vInt 10, .vInt 20, .vInt 30])
          (.subscript (.name "arr") (.bin .sub (.name "i") (.lit (.vInt 1)))) =
        .ok (.val (([.vInt 10, .vInt 20, .vInt 30] :
          List PECValue).getD 1 .vNone),
          C7state' 1 [.vInt 10, .vInt 20, .vInt 30])) ∧
    evalExpr (C7state' 1 [.vInt 10, .vInt 20, .vInt 30])
        (.subscript (.name "arr") (.name "i")) =
      .ok (.val (([.vInt 10, .vInt 20, .vInt 30] :
        List PECValue).getD 2 .vNone),
        C7state' 1 [.vInt 10, .vInt 20, .vInt 30]) :=
  ⟨C7_update_expression_splitting.2.2.1 1 [.vInt 10, .vInt 20, .vInt 30]
      (by decide),
   C7_update_expression_splitting.2.2.2 1 [.vInt 10, .vInt 20, .vInt 30]
      (by decide)⟩


/-- A deletion override rule whose pattern matches exactly the line `i=0`. -/
def C8rule : RePattern × Option String :=
  ({ search := fun v => v == "i=0", sub := fun tmpl _ => tmpl }, none)

/-- **C8 counterexample** — the claim says every normalized line produced
while transpiling a routine has the routine's override rules tried on it.
The initializer line of a `for` statement (here the declaration `int i = 0`)
is appended by the `for_statement` arm without `_try_replace`: with a
deletion rule matching `i=0`, the claim demands the line become the comment
`# i=0`, but the transpiled output keeps the raw `i=0` (while the very same
declaration as a standalone statement IS demoted to a comment). -/
theorem C8_counterexample :
    transpileStmt [C8rule] 0
      (.forStmt (some (.declE "i" none (some (.num 0))))
        (some (.binaryE "<" (.ident "i") (.num 3))) none []) =
      ["i=0", "while (i<3):"] ∧
    (C8rule.1.search "i=0" = true) ∧
    tryReplace [C8rule] "i=0" = "# i=0" ∧
    transpileStmt [C8rule] 0 (.exprStmt (.declE "i" none (some (.num 0)))) =
      ["# i=0"] := ⟨rfl, rfl, rfl, rfl⟩

/-- **C8 (amended)** — For the lines that go through `_try_replace`
(statement-level expression/declaration/comment lines, assignment-expression
lines, `if` conditions), the rules are tried in declaration order: the first
rule whose pattern matches is applied — a deletion rule demotes the line to
a comment, a substitution rule replaces it — and no later rule is attempted
(the result does not depend on the rules after the first match); a line
matched by no rule passes through unchanged.  `for`-initializer lines (and
loop headers/updates) bypass the rules entirely. -/
theorem C8_override_first_match_wins :
    (∀ (pre : List (RePattern × Option String)) (r : RePattern)
        (sub : Option String) (post : List (RePattern × Option String))
        (v : String),
      (∀ p ∈ pre, p.1.search v = false) → r.search v = true →
      tryReplace (pre ++ (r, sub) :: post) v =
        (match sub with
         | none => "# " ++ v
         | some tmpl => r.sub tmpl v)) ∧
    (∀ (rules : List (RePattern × Option String)) (v : String),
      (∀ p ∈ rules, p.1.search v = false) → tryReplace rules v = v) ∧
    (∀ (rules : RuleList) (ind : Nat) (e : CExpr),
      transpileStmt rules ind (.exprStmt e) =
        (transpileExpression rules ind e).1 ++
          [tryReplace rules (transpileExpression rules ind e).2]) ∧
    (∀ (rules : RuleList) (ind : Nat) (ie : CExpr) (cond : Option CExpr)
        (upd : Option CExpr) (body : List CStmt), ∃ rest,
      transpileStmt rules ind (.forStmt (some ie) cond upd body) =
        (transpileExpression rules ind ie).1 ++
          [(transpileExpression rules ind ie).2] ++ rest) := by
  refine ⟨?_, ?_, ?_, ?_⟩
  · intro pre r sub post v hpre hr
    induction pre with
    | nil => simp [tryReplace, hr]
    | cons p rest ih =>
        have hp : p.1.search v = false := hpre p (List.mem_cons_self p rest)
        have hrest : ∀ q ∈ rest, q.1.search v = false :=
          fun q hq => hpre q (List.mem_cons_of_mem p hq)
        simp only [List.cons_append, tryReplace, hp, Bool.false_eq_true,
          if_false]
        exact ih hrest
  · intro rules v h
    induction rules with
    | nil => rfl
    | cons p rest ih =>
        have hp : p.1.search v = false := h p (List.mem_cons_self p rest)
        have hrest : ∀ q ∈ rest, q.1.search v = false :=
          fun q hq => h q (List.mem_cons_of_mem p hq)
        simp only [tryReplace, hp, Bool.false_eq_true, if_false]
        exact ih hrest
  · intro rules ind e
    rfl
  · intro rules ind ie cond upd body
    refine ⟨(match cond with
      | some ce => (transpileExpression rules ind ce).1 ++
          ["while (" ++ (transpileExpression rules ind ce).2 ++ "):"]
      | none => ["while True:"]) ++
      indent4 (transpileStmts rules 4 body) ++
      (match upd with
      | some ue => (transpileExpression rules 4 ue).1 ++
          indent4 [(transpileExpression rules 4 ue).2]
      | none => []), ?_⟩
    simp only [transpileStmt, List.append_assoc]

/-- Witness for the amended C8: with the deletion rule of `C8rule` first and
an arbitrary second rule after it, the line `i=0` is demoted to a comment by
the first rule (the second is never attempted); an unmatched line passes
through unchanged; and the `for`-initializer bypass at the counterexample's
input. -/
theorem C8_override_first_match_wins_witness :
    tryReplace ([] ++ C8rule :: [C8rule]) "i=0" = "# i=0" ∧
    tryReplace [C8rule] "x=arr" = "x=arr" ∧
    transpileStmt [C8rule] 0 (.exprStmt (.declE "i" none (some (.num 0)))) =
      (transpileExpression [C8rule] 0 (.declE "i" none (some (.num 0)))).1 ++
        [tryReplace [C8rule]
          (transpileExpression [C8rule] 0 (.declE "i" none (some (.num 0)))).2] ∧
    ∃ rest, transpileStmt [C8rule] 0
        (.forStmt (some (.declE "i" none (some (.num 0))))
          (some (.binaryE "<" (.ident "i") (.num 3))) none []) =
      (transpileExpression [C8rule] 0 (.declE "i" none (some (.num 0)))).1 ++
        [(transpileExpression [C8rule] 0 (.declE "i" none (some (.num 0)))).2] ++
        rest :=
  ⟨C8_override_first_match_wins.1 [] C8rule.1 none [C8rule] "i=0"
      (by intro p hp; simp at hp) rfl,
   C8_override_first_match_wins.2.1 [C8rule] "x=arr"
      (by intro p hp; rw [List.mem_singleton.mp hp]; rfl),
   C8_override_first_match_wins.2.2.1 [C8rule] 0 (.declE "i" none (some (.num 0))),
   C8_override_first_match_wins.2.2.2 [C8rule] 0 (.declE "i" none (some (.num 0)))
      (some (.binaryE "<" (.ident "i") (.num 3))) none []⟩

/-- A pending-effects table whose identities are all below `n` cannot
contain `n`. -/
theorem lookup_none_of_lt (pending : List (Nat × Nat)) (n : Nat)
    (h : ∀ p ∈ pending, p.1 < n) : pending.lookup n = none := by
  induction pending with
  | nil => rfl
  | cons a t ih =>
      rcases a with ⟨a1, a2⟩
      have ha : a1 < n := h (a1, a2) (List.mem_cons_self _ t)
      have hne : (n == a1) = false := beq_eq_false_iff_ne.mpr (by omega)
      rw [List.lookup_cons]
      simp only [hne]
      exact ih (fun p hp => h p (List.mem_cons_of_mem _ hp))

/-- Popping a freshly appended pending entry returns its index and restores
the previous table. -/
theorem pendingPop_append (pending : List (Nat × Nat)) (n L : Nat)
    (h : ∀ p ∈ pending, p.1 < n) :
    pendingPop (pending ++ [(n, L)]) n = (some L, pending) := by
  have h1 : (pending ++ [(n, L)]).lookup n = some L := by
    rw [List.lookup_append, lookup_none_of_lt pending n h]
    simp
  have h2 : (pending ++ [(n, L)]).eraseP (fun q => q.1 == n) = pending := by
    rw [List.eraseP_append_right _
      (fun b hb => by simp [beq_eq_false_iff_ne.mpr (Nat.ne_of_lt (h b hb))])]
    simp
  unfold pendingPop
  rw [h1, h2]

/-- The node a watched constructor callable (catalogued callable →
`PELispForm`, recognized primitive → `PECFunctionCall`) builds from the
given identity and arguments. -/
def ctorResult : PyVal → Nat → List PECValue → Option PEValue
  | .lispFn l, i, args => some (.PELispForm i l args)
  | .cFn c, i, args => some (.PECFunctionCall i c args)
  | _, _, _ => none

/-- The `_watch_side_effects` wrapper on a constructor call: build the fresh
node, retract the arguments' pending entries, and register the node at the
end of the trace (its identity is fresh, hence not pending). -/
theorem watchedApply_ctor (st0 st2 : EvalState) (args : List PyVal)
    (node : PEValue) (mk : EvalState → Except String (PyVal × EvalState))
    (hmk : mk st0 = .ok (.val (.pe node), { st0 with nextId := st0.nextId + 1 }))
    (hfold : args.foldl walkRemoveSideEffectVal
        { st0 with nextId := st0.nextId + 1 } = st2)
    (hlk : st2.pending.lookup node.peId = none) :
    watchedApply st0 args mk = .ok (.val (.pe node), { st2 with
      pending := st2.pending ++ [(node.peId, st2.evaluated.length)],
      evaluated := st2.evaluated ++ [some node] }) := by
  unfold watchedApply
  rw [hmk]
  simp only [hfold, hlk, Option.isSome_none, Bool.false_eq_true, if_false]

/-- The state after the inner call of C1 registered its fresh node. -/
def c1InnerState (st : EvalState) (ni : PEValue) : EvalState :=
  { st with
    nextId := st.nextId + 1
    pending := st.pending ++ [(st.nextId, st.evaluated.length)]
    evaluated := st.evaluated ++ [some ni] }

/-- The state after the outer call of C1 retracted the inner node's slot and
registered its own node. -/
def c1FinalState (st : EvalState) (no : PEValue) : EvalState :=
  { st with
    nextId := st.nextId + 2
    pending := st.pending ++ [(st.nextId + 1, st.evaluated.length + 1)]
    evaluated := st.evaluated ++ [none, some no] }

/-- **C1** — For an evaluated call `outer(inner(x))` where both `outer` and
`inner` resolve to catalogued callables or recognized primitives, the inner
call is first registered as a pending top-level effect, then retracted (its
trace slot blanked) when it is consumed as an argument of the outer call;
the final retained trace gains exactly one entry for the pair: the outer
call with the inner call nested as its argument. -/
theorem C1_nested_call_single_retained_entry (st : EvalState) (fuel : Nat)
    (outer inner : String) (fo fi : PyVal) (ni no : PEValue) (x : Int)
    (ho : nameLookup st outer = .ok (fo, st))
    (hi : nameLookup st inner = .ok (fi, st))
    (hni : ctorResult fi st.nextId [.vInt x] = some ni)
    (hno : ctorResult fo (st.nextId + 1) [.pe ni] = some no)
    (hwf : ∀ p ∈ st.pending, p.1 < st.nextId) :
    ∃ st', execStmt (fuel + 1) st
        (.exprStmt (.call outer [.call inner [.lit (.vInt x)]])) = .ok st' ∧
      st'.evaluated = st.evaluated ++ [none, some no] ∧
      finalTrace st'.evaluated = finalTrace st.evaluated ++ [no] := by
  have hpe_ni : ni.peId = st.nextId := by
    cases fi <;> simp [ctorResult] at hni <;> rw [← hni] <;> rfl
  have hpe_no : no.peId = st.nextId + 1 := by
    cases fo <;> simp [ctorResult] at hno <;> rw [← hno] <;> rfl
  have hpc_no : pe_constant no = false := by
    cases fo <;> simp [ctorResult] at hno <;> rw [← hno] <;> rfl
  have happ_i : applyCallable st fi [.val (.vInt x)] =
      .ok (.val (.pe ni), c1InnerState st ni) := by
    have hlk : (({ st with nextId := st.nextId + 1 } :
        EvalState)).pending.lookup ni.peId = none := by
      rw [hpe_ni]
      exact lookup_none_of_lt st.pending st.nextId hwf
    cases fi <;> simp [ctorResult] at hni
    case lispFn l =>
      have hmk : (fun s => match asPECs [PyVal.val (PECValue.vInt x)] with
          | .ok ps => Except.ok (mkForm s l ps)
          | .error e => Except.error e) st =
          Except.ok (PyVal.val (PECValue.pe
              (PEValue.PELispForm st.nextId l [PECValue.vInt x])),
            { st with nextId := st.nextId + 1 }) := rfl
      rw [hni] at hmk
      have hw := watchedApply_ctor st { st with nextId := st.nextId + 1 }
        [PyVal.val (PECValue.vInt x)] ni
        (fun s => match asPECs [PyVal.val (PECValue.vInt x)] with
          | .ok ps => Except.ok (mkForm s l ps)
          | .error e => Except.error e)
        hmk rfl hlk
      rw [hpe_ni] at hw
      have happly : applyCallable st (PyVal.lispFn l)
          [PyVal.val (PECValue.vInt x)] =
          watchedApply st [PyVal.val (PECValue.vInt x)]
          (fun s => match asPECs [PyVal.val (PECValue.vInt x)] with
            | .ok ps => Except.ok (mkForm s l ps)
            | .error e => Except.error e) := rfl
      rw [happly]
      exact hw
    case cFn c =>
      have hmk : (fun s => match asPECs [PyVal.val (PECValue.vInt x)] with
          | .ok ps => Except.ok (mkCCall s c ps)
          | .error e => Except.error e) st =
          Except.ok (PyVal.val (PECValue.pe
              (PEValue.PECFunctionCall st.nextId c [PECValue.vInt x])),
            { st with nextId := st.nextId + 1 }) := rfl
      rw [hni] at hmk
      have hw := watchedApply_ctor st { st with nextId := st.nextId + 1 }
        [PyVal.val (PECValue.vInt x)] ni
        (fun s => match asPECs [PyVal.val (PECValue.vInt x)] with
          | .ok ps => Except.ok (mkCCall s c ps)
          | .error e => Except.error e)
        hmk rfl hlk
      rw [hpe_ni] at hw
      have happly : applyCallable st (PyVal.cFn c)
          [PyVal.val (PECValue.vInt x)] =
          watchedApply st [PyVal.val (PECValue.vInt x)]
          (fun s => match asPECs [PyVal.val (PECValue.vInt x)] with
            | .ok ps => Except.ok (mkCCall s c ps)
            | .error e => Except.error e) := rfl
      rw [happly]
      exact hw
  have hival : evalExpr st (.call inner [.lit (.vInt x)]) =
      .ok (.val (.pe ni), c1InnerState st ni) := by
    show (match nameLookup st inner with
      | .error e => Except.error e
      | .ok (fv, st') =>
          match evalArgs st' [PyExpr.lit (PECValue.vInt x)] with
          | .error e => Except.error e
          | .ok (argv, st'') => applyCallable st'' fv argv) = _
    rw [hi]
    exact happ_i
  have hfold_o : [PyVal.val (.pe ni)].foldl walkRemoveSideEffectVal
      { c1InnerState st ni with nextId := st.nextId + 2 } =
      { st with
        nextId := st.nextId + 2
        evaluated := st.evaluated ++ [none] } := by
    show walkRemoveSideEffectVal _ (.val (.pe ni)) = _
    have hw : walkRemoveSideEffectVal
        { c1InnerState st ni with nextId := st.nextId + 2 } (.val (.pe ni)) =
        removeSideEffects
          { c1InnerState st ni with nextId := st.nextId + 2 } (.pe ni) := by
      show walkRemoveSideEffect _ (.pe ni) = _
      exact walkRemoveSideEffect_eq _ _
    rw [hw]
    have hpop : pendingPop (st.pending ++ [(st.nextId, st.evaluated.length)])
        ni.peId = (some st.evaluated.length, st.pending) := by
      rw [hpe_ni]
      exact pendingPop_append st.pending st.nextId st.evaluated.length hwf
    have hrs : removeSideEffects
        { c1InnerState st ni with nextId := st.nextId + 2 } (.pe ni) =
        match pendingPop (st.pending ++ [(st.nextId, st.evaluated.length)])
          ni.peId with
        | (some i, p) =>
            { st with
              nextId := st.nextId + 2
              pending := p
              evaluated := (st.evaluated ++ [some ni]).set i none }
        | (none, _) => { c1InnerState st ni with nextId := st.nextId + 2 } := rfl
    have hset : (st.evaluated ++ [some ni]).set st.evaluated.length none =
        st.evaluated ++ [none] := by
      rw [List.set_append_right _ _ (le_refl _)]
      simp
    rw [hrs, hpop]
    show ({ st with
      nextId := st.nextId + 2
      pending := st.pending
      evaluated := (st.evaluated ++ [some ni]).set st.evaluated.length none } :
      EvalState) = _
    rw [hset]
  have happ_o : applyCallable (c1InnerState st ni) fo [.val (.pe ni)] =
      .ok (.val (.pe no), c1FinalState st no) := by
    have hlk2 : (({ st with
        nextId := st.nextId + 2
        evaluated := st.evaluated ++ [none] } : EvalState)).pending.lookup
        no.peId = none := by
      rw [hpe_no]
      exact lookup_none_of_lt st.pending (st.nextId + 1)
        (fun p hp => Nat.lt_succ_of_lt (hwf p hp))
    cases fo <;> simp [ctorResult] at hno
    case lispFn l =>
      have hmk : (fun s => match asPECs [PyVal.val (PECValue.pe ni)] with
          | .ok ps => Except.ok (mkForm s l ps)
          | .error e => Except.error e) (c1InnerState st ni) =
          Except.ok (PyVal.val (PECValue.pe
              (PEValue.PELispForm (st.nextId + 1) l [PECValue.pe ni])),
            { c1InnerState st ni with
              nextId := (c1InnerState st ni).nextId + 1 }) := rfl
      rw [hno] at hmk
      have hw := watchedApply_ctor (c1InnerState st ni)
        ({ st with
          nextId := st.nextId + 2
          evaluated := st.evaluated ++ [none] })
        [PyVal.val (PECValue.pe ni)] no
        (fun s => match asPECs [PyVal.val (PECValue.pe ni)] with
          | .ok ps => Except.ok (mkForm s l ps)
          | .error e => Except.error e)
        hmk hfold_o hlk2
      rw [hpe_no] at hw
      have happly : applyCallable (c1InnerState st ni) (PyVal.lispFn l)
          [PyVal.val (PECValue.pe ni)] =
          watchedApply (c1InnerState st ni) [PyVal.val (PECValue.pe ni)]
          (fun s => match asPECs [PyVal.val (PECValue.pe ni)] with
            | .ok ps => Except.ok (mkForm s l ps)
            | .error e => Except.error e) := rfl
      rw [happly, hw]
      simp [c1FinalState, List.append_assoc]
    case cFn c =>
      have hmk : (fun s => match asPECs [PyVal.val (PECValue.pe ni)] with
          | .ok ps => Except.ok (mkCCall s c ps)
          | .error e => Except.error e) (c1InnerState st ni) =
          Except.ok (PyVal.val (PECValue.pe
              (PEValue.PECFunctionCall (st.nextId + 1) c [PECValue.pe ni])),
            { c1InnerState st ni with
              nextId := (c1InnerState st ni).nextId + 1 }) := rfl
      rw [hno] at hmk
      have hw := watchedApply_ctor (c1InnerState st ni)
        ({ st with
          nextId := st.nextId + 2
          evaluated := st.evaluated ++ [none] })
        [PyVal.val (PECValue.pe ni)] no
        (fun s => match asPECs [PyVal.val (PECValue.pe ni)] with
          | .ok ps => Except.ok (mkCCall s c ps)
          | .error e => Except.error e)
        hmk hfold_o hlk2
      rw [hpe_no] at hw
      have happly : applyCallable (c1InnerState st ni) (PyVal.cFn c)
          [PyVal.val (PECValue.pe ni)] =
          watchedApply (c1InnerState st ni) [PyVal.val (PECValue.pe ni)]
          (fun s => match asPECs [PyVal.val (PECValue.pe ni)] with
            | .ok ps => Except.ok (mkCCall s c ps)
            | .error e => Except.error e) := rfl
      rw [happly, hw]
      simp [c1FinalState, List.append_assoc]
  have hfull : evalExpr st (.call outer [.call inner [.lit (.vInt x)]]) =
      .ok (.val (.pe no), c1FinalState st no) := by
    show (match nameLookup st outer with
      | .error e => Except.error e
      | .ok (fv, st') =>
          match evalArgs st' [PyExpr.call inner [PyExpr.lit (PECValue.vInt x)]] with
          | .error e => Except.error e
          | .ok (argv, st'') => applyCallable st'' fv argv) = _
    rw [ho]
    have hargs : evalArgs st [.call inner [.lit (.vInt x)]] =
        .ok ([.val (.pe ni)], c1InnerState st ni) := by
      show (match evalExpr st (PyExpr.call inner [PyExpr.lit (PECValue.vInt x)]) with
        | .error e => Except.error e
        | .ok (v, st') =>
            match evalArgs st' ([] : List PyExpr) with
            | .error e => Except.error e
            | .ok (vs, st'') => Except.ok (v :: vs, st'')) = _
      rw [hival]
      rfl
    show (match evalArgs st [PyExpr.call inner [PyExpr.lit (PECValue.vInt x)]] with
      | .error e => Except.error e
      | .ok (argv, st'') => applyCallable st'' fo argv) = _
    rw [hargs]
    exact happ_o
  refine ⟨c1FinalState st no, ?_, rfl, ?_⟩
  · show (match evalExpr st
        (PyExpr.call outer [PyExpr.call inner [PyExpr.lit (PECValue.vInt x)]]) with
      | .error err => Except.error err
      | .ok (p, st') => Except.ok st') = _
    rw [hfull]
  · show finalTrace (st.evaluated ++ [none, some no]) = _
    unfold finalTrace
    rw [List.filterMap_append]
    simp [hpc_no]

/-- A concrete evaluator state for exercising C1: one catalogued Lisp
callable (`Fcons_wrap`, Lisp name `cons-wrap`); `make_fixnum` resolves as a
recognized primitive. -/
def C1st : EvalState :=
  { emptyState with lisp_functions := [("Fcons_wrap", "cons-wrap")] }

/-- The inner node built for C1's witness. -/
def C1ni : PEValue := .PECFunctionCall 0 "make_fixnum" [.vInt 5]

/-- The outer node built for C1's witness. -/
def C1no : PEValue := .PELispForm 1 "cons-wrap" [.pe C1ni]

/-- Witness for **C1**: evaluating `Fcons_wrap(make_fixnum(5))` from the
concrete catalog yields a trace whose only retained entry is the outer form
with the inner call nested inside; the inner call's slot is blanked. -/
theorem C1_nested_call_single_retained_entry_witness :
    ∃ st', execStmt (0 + 1) C1st
        (.exprStmt (.call "Fcons_wrap" [.call "make_fixnum" [.lit (.vInt 5)]])) =
          .ok st' ∧
      st'.evaluated = C1st.evaluated ++ [none, some C1no] ∧
      finalTrace st'.evaluated = finalTrace C1st.evaluated ++ [C1no] :=
  C1_nested_call_single_retained_entry C1st 0 "Fcons_wrap" "make_fixnum"
    (.lispFn "cons-wrap") (.cFn "make_fixnum") C1ni C1no 5
    rfl rfl rfl rfl (by simp [C1st, emptyState])

/-!
## Claim C6 — bounded loops genuinely iterate

A C routine `Lisp_Object arr[N]; for (i = 0; i < N; i++) arr[i] = f(i);`
with `N` a named constant of the compilation unit and `f` a catalogued
callable.  `C6csrc` is its parsed form, `C6prog` the Python program the
normalized lines denote (including the inert stray expression lines the
normalizer emits), `C6unrolled` the manual unrolling (the loop body
repeated `n` times), and `C6trace` the expected trace: one effect per
iteration, in ascending index order.
-/

/-- A compilation unit declaring the constant `N = n` and the catalogued
callable `f` (Lisp name `f-lisp`). -/
def C6file (n : Nat) : FileContents :=
  { lisp_variables := [], c_variables := [],
    constants := [{ name := "N", value := .vInt (n : Int) }],
    functions := [{ lisp_name := "f-lisp", c_name := "f" }] }

/-- The evaluator state at the start of `evaluate` for that unit. -/
def C6base (n : Nat) : EvalState := initEval [] [C6file n] (C6file n) []

/-- The node built by the `k`-th iteration\'s `f(i)` call. -/
def C6form (k : Nat) : PEValue := .PELispForm k "f-lisp" [.vInt (k : Int)]

/-- The `arr` list after `k` iterations: the first `k` slots filled. -/
def C6arr (n k : Nat) : List PECValue :=
  (List.range n).map (fun j => if j < k then .pe (C6form j) else .vNone)

/-- The evaluator state at the top of the loop after `k` iterations. -/
def C6state (n k : Nat) : EvalState :=
  { C6base n with
    local_variables := ["arr", "i"]
    env := [("arr", .val (.vList (C6arr n k))), ("i", .val (.vInt (k : Int)))]
    evaluated := (List.range k).map (fun j => some (C6form j))
    pending := (List.range k).map (fun j => (j, j))
    nextId := k }

/-- The state after the `arr=c_array(N,None)` declaration line. -/
def C6stateA (n : Nat) : EvalState :=
  { C6base n with
    local_variables := ["arr"]
    env := [("arr", .val (.vList (C6arr n 0)))] }

/-- The loop body lines: `arr[i]=f(i)`, the stray `arr[i]`, `i += 1`, and
the stray postfix correction `i - 1`. -/
def C6body : PyStmt :=
  .seq (.assignSub "arr" (.name "i") (.call "f" [.name "i"]))
  (.seq (.exprStmt (.subscript (.name "arr") (.name "i")))
  (.seq (.assignName "i" (.bin .add (.name "i") (.lit (.vInt 1))))
  (.exprStmt (.bin .sub (.name "i") (.lit (.vInt 1))))))

/-- The loop header condition `i<N`. -/
def C6cond : PyExpr := .bin .lt (.name "i") (.name "N")

/-- The normalized loop: `while (i<N):` around the body. -/
def C6loop : PyStmt := .whileStmt C6cond C6body

/-- The whole normalized routine as executed by `exec`. -/
def C6prog : PyStmt :=
  .seq (.assignName "arr" (.call "c_array" [.name "N", .lit .vNone]))
  (.seq (.assignName "i" (.lit (.vInt 0)))
  (.seq (.exprStmt (.name "i"))
  C6loop))

/-- The loop body repeated `r` times (manual unrolling). -/
def C6bodyRep : Nat → PyStmt
  | 0 => .skip
  | c + 1 => .seq C6body (C6bodyRep c)

/-- The routine with the loop manually unrolled `n` times. -/
def C6unrolled (n : Nat) : PyStmt :=
  .seq (.assignName "arr" (.call "c_array" [.name "N", .lit .vNone]))
  (.seq (.assignName "i" (.lit (.vInt 0)))
  (.seq (.exprStmt (.name "i"))
  (C6bodyRep n)))

/-- The expected retained trace: `f` applied to `0, 1, …, n-1`. -/
def C6trace (n : Nat) : List PEValue := (List.range n).map C6form

/-- The parsed C routine fed to the normalizer. -/
def C6csrc : List CStmt :=
  [ .exprStmt (.declE "arr" (some (.ident "N")) none),
    .forStmt (some (.assignE (.ident "i") (.num 0)))
             (some (.binaryE "<" (.ident "i") (.ident "N")))
             (some (.update false true "i"))
             [.exprStmt (.assignE (.subscriptE (.ident "arr") (.ident "i"))
                                  (.callE "f" [.ident "i"]))] ]

/-- The state right after the `k`-th `f(i)` call registered its node. -/
def C6mid0 (n k : Nat) : EvalState :=
  { C6base n with
    local_variables := ["arr", "i"]
    env := [("arr", .val (.vList (C6arr n k))), ("i", .val (.vInt (k : Int)))]
    evaluated := (List.range (k+1)).map (fun j => some (C6form j))
    pending := (List.range (k+1)).map (fun j => (j, j))
    nextId := k + 1 }

/-- The state after `arr[i] = f(i)` of iteration `k` (before `i += 1`). -/
def C6mid (n k : Nat) : EvalState :=
  { C6base n with
    local_variables := ["arr", "i"]
    env := [("arr", .val (.vList (C6arr n (k+1)))), ("i", .val (.vInt (k : Int)))]
    evaluated := (List.range (k+1)).map (fun j => some (C6form j))
    pending := (List.range (k+1)).map (fun j => (j, j))
    nextId := k + 1 }

/-- `arr` keeps length `n` throughout. -/
theorem C6arr_length (n k : Nat) : (C6arr n k).length = n := by
  simp [C6arr]

/-- The elements of the partially filled `arr`. -/
theorem C6arr_getElem (n k j : Nat) :
    (C6arr n k)[j]? = if j < n then
      some (if j < k then .pe (C6form j) else .vNone) else none := by
  unfold C6arr
  rw [List.getElem?_map]
  by_cases hj : j < n
  · rw [List.getElem?_range hj]
    simp [hj]
  · have hnone : (List.range n)[j]? = none := by
      rw [List.getElem?_eq_none_iff]
      simpa using by omega
    rw [hnone]
    simp [hj]

/-- Storing iteration `k`\'s node at index `k` fills the next slot. -/
theorem C6arr_set (n k : Nat) (h : k < n) :
    (C6arr n k).set k (.pe (C6form k)) = C6arr n (k + 1) := by
  apply List.ext_getElem?
  intro j
  by_cases hjk : k = j
  · subst hjk
    rw [List.getElem?_set_self', C6arr_getElem, C6arr_getElem]
    simp [h]
  · rw [List.getElem?_set_ne hjk, C6arr_getElem, C6arr_getElem]
    simp only [show (j < k) ↔ (j < k + 1) by omega]

/-- Executing `arr[i] = f(i)` at the top of iteration `k` builds the node,
registers it as a pending top-level effect at slot `k`, and stores it into
`arr` — a genuine per-iteration effect. -/
theorem C6_assignSub_step (n k : Nat) (h : k < n) (f : Nat) :
    execStmt (f + 1) (C6state n k)
      (.assignSub "arr" (.name "i") (.call "f" [.name "i"])) =
      .ok (C6mid n k) := by
  have hf : nameLookup (C6state n k) "f" =
      .ok (.lispFn "f-lisp", C6state n k) := rfl
  have hargs : evalArgs (C6state n k) [.name "i"] =
      .ok ([.val (.vInt (k : Int))], C6state n k) := rfl
  have hlk : (({ C6state n k with nextId := (C6state n k).nextId + 1 } :
      EvalState)).pending.lookup (C6form k).peId = none := by
    show ((List.range k).map (fun j => (j, j))).lookup k = none
    apply lookup_none_of_lt
    intro p hp
    simp only [List.mem_map, List.mem_range] at hp
    obtain ⟨j, hj, rfl⟩ := hp
    exact hj
  have hw := watchedApply_ctor (C6state n k)
    { C6state n k with nextId := (C6state n k).nextId + 1 }
    [PyVal.val (PECValue.vInt (k : Int))] (C6form k)
    (fun s => match asPECs [PyVal.val (PECValue.vInt (k : Int))] with
      | .ok ps => Except.ok (mkForm s "f-lisp" ps)
      | .error e => Except.error e)
    rfl rfl hlk
  have hcall : evalExpr (C6state n k) (.call "f" [.name "i"]) =
      .ok (.val (.pe (C6form k)), C6mid0 n k) := by
    show (match nameLookup (C6state n k) "f" with
      | .error e => Except.error e
      | .ok (fv, st') =>
          match evalArgs st' [PyExpr.name "i"] with
          | .error e => Except.error e
          | .ok (argv, st'') => applyCallable st'' fv argv) = _
    rw [hf]
    show (match evalArgs (C6state n k) [PyExpr.name "i"] with
      | .error e => Except.error e
      | .ok (argv, st'') =>
          applyCallable st'' (PyVal.lispFn "f-lisp") argv) = _
    rw [hargs]
    show applyCallable (C6state n k) (PyVal.lispFn "f-lisp")
      [PyVal.val (PECValue.vInt (k : Int))] = _
    have happly : applyCallable (C6state n k) (PyVal.lispFn "f-lisp")
        [PyVal.val (PECValue.vInt (k : Int))] =
        watchedApply (C6state n k) [PyVal.val (PECValue.vInt (k : Int))]
        (fun s => match asPECs [PyVal.val (PECValue.vInt (k : Int))] with
          | .ok ps => Except.ok (mkForm s "f-lisp" ps)
          | .error e => Except.error e) := rfl
    rw [happly, hw]
    congr 2
    show ({ C6state n k with
      nextId := (C6state n k).nextId + 1
      pending := (C6state n k).pending ++
        [((C6form k).peId, (C6state n k).evaluated.length)]
      evaluated := (C6state n k).evaluated ++ [some (C6form k)] } :
      EvalState) = C6mid0 n k
    have hp : (C6state n k).pending ++
        [((C6form k).peId, (C6state n k).evaluated.length)] =
        (List.range (k+1)).map (fun j => ((j : Nat), (j : Nat))) := by
      show (List.range k).map (fun j => ((j : Nat), (j : Nat))) ++
        [(k, ((List.range k).map (fun j => some (C6form j))).length)] = _
      rw [List.range_succ, List.map_append]
      simp
    have hev : (C6state n k).evaluated ++ [some (C6form k)] =
        (List.range (k+1)).map (fun j => some (C6form j)) := by
      show (List.range k).map (fun j => some (C6form j)) ++ [some (C6form k)] = _
      rw [List.range_succ, List.map_append]
      rfl
    rw [hp, hev]
    rfl
  show (match evalExpr (C6state n k) (.call "f" [.name "i"]) with
    | .error err => Except.error err
    | .ok (v, st) =>
        match st.env.lookup "arr" with
        | some (.val (.vList xs)) =>
            (match evalExpr st (.name "i") with
            | .error err => Except.error err
            | .ok (iv, st) =>
                match iv, v with
                | .val (.vInt m), .val pv =>
                    let m' : Int := if m < 0 then (xs.length : Int) + m else m
                    if 0 ≤ m' ∧ m'.toNat < xs.length then
                      let xs' := xs.set m'.toNat pv
                      .ok { st with
                        env := assocSet st.env "arr" (.val (.vList xs')) }
                    else .error "IndexError"
                | _, _ => .error "TypeError")
        | _ => .error "unsupported subscript target") = _
  rw [hcall]
  show (if 0 ≤ (if (k : Int) < 0 then ((C6arr n k).length : Int) + (k : Int)
          else (k : Int)) ∧
        (if (k : Int) < 0 then ((C6arr n k).length : Int) + (k : Int)
          else (k : Int)).toNat < (C6arr n k).length then
      Except.ok ({ C6mid0 n k with
        env := assocSet (C6mid0 n k).env "arr"
          (PyVal.val (PECValue.vList ((C6arr n k).set
            (if (k : Int) < 0 then ((C6arr n k).length : Int) + (k : Int)
              else (k : Int)).toNat (PECValue.pe (C6form k))))) } : EvalState)
    else Except.error "IndexError") = Except.ok (C6mid n k)
  have hX : (if (k : Int) < 0 then ((C6arr n k).length : Int) + (k : Int)
      else (k : Int)) = (k : Int) := if_neg (by omega)
  rw [hX]
  have hcond : 0 ≤ (k : Int) ∧ ((k : Int)).toNat < (C6arr n k).length := by
    refine ⟨Int.natCast_nonneg k, ?_⟩
    rw [Int.toNat_natCast, C6arr_length]
    exact h
  rw [if_pos hcond, Int.toNat_natCast, C6arr_set n k h]
  rfl

/-- The stray `arr[i]` expression line reads the list and changes
nothing. -/
theorem C6_stray_sub_step (n k : Nat) (h : k < n) (f : Nat) :
    execStmt (f + 1) (C6mid n k)
      (.exprStmt (.subscript (.name "arr") (.name "i"))) = .ok (C6mid n k) := by
  have hX : (if (k : Int) < 0 then ((C6arr n (k+1)).length : Int) + (k : Int)
      else (k : Int)) = (k : Int) := if_neg (by omega)
  have hcond : 0 ≤ (k : Int) ∧ ((k : Int)).toNat < (C6arr n (k+1)).length := by
    refine ⟨Int.natCast_nonneg k, ?_⟩
    rw [Int.toNat_natCast, C6arr_length]
    omega
  have hgi : getIndex (.val (.vList (C6arr n (k+1)))) (.val (.vInt (k : Int))) =
      .ok (.val ((C6arr n (k+1)).getD ((k : Int)).toNat .vNone)) := by
    show (if 0 ≤ (if (k : Int) < 0 then ((C6arr n (k+1)).length : Int) + (k : Int)
            else (k : Int)) ∧
          (if (k : Int) < 0 then ((C6arr n (k+1)).length : Int) + (k : Int)
            else (k : Int)).toNat < (C6arr n (k+1)).length then
        Except.ok (PyVal.val ((C6arr n (k+1)).getD
          (if (k : Int) < 0 then ((C6arr n (k+1)).length : Int) + (k : Int)
            else (k : Int)).toNat PECValue.vNone))
      else Except.error "IndexError") =
      Except.ok (PyVal.val ((C6arr n (k+1)).getD ((k : Int)).toNat
        PECValue.vNone))
    rw [hX, if_pos hcond]
  have hsub : evalExpr (C6mid n k) (.subscript (.name "arr") (.name "i")) =
      .ok (.val ((C6arr n (k+1)).getD ((k : Int)).toNat .vNone), C6mid n k) := by
    show (match getIndex (.val (.vList (C6arr n (k+1))))
        (.val (.vInt (k : Int))) with
      | .error e => Except.error e
      | .ok v => Except.ok (v, C6mid n k)) = _
    rw [hgi]
  show (match evalExpr (C6mid n k) (.subscript (.name "arr") (.name "i")) with
    | .error err => Except.error err
    | .ok (p, st') => Except.ok st') = _
  rw [hsub]

/-- The synthesized `i += 1` statement advances the loop counter. -/
theorem C6_incr_step (n k : Nat) (f : Nat) :
    execStmt (f + 1) (C6mid n k)
      (.assignName "i" (.bin .add (.name "i") (.lit (.vInt 1)))) =
      .ok (C6state n (k + 1)) := rfl

/-- One full loop-body execution advances the state from iteration `k` to
iteration `k+1`. -/
theorem C6_body_step (n k : Nat) (h : k < n) (y : Nat) :
    execStmt (y + 4) (C6state n k) C6body = .ok (C6state n (k + 1)) := by
  have h1 := C6_assignSub_step n k h (y + 2)
  have h2 := C6_stray_sub_step n k h (y + 1)
  have h3 := C6_incr_step n k y
  have h4 : execStmt (y + 1) (C6state n (k + 1))
      (.exprStmt (.bin .sub (.name "i") (.lit (.vInt 1)))) =
      .ok (C6state n (k + 1)) := rfl
  show (match execStmt (y + 3) (C6state n k)
      (.assignSub "arr" (.name "i") (.call "f" [.name "i"])) with
    | .error e => Except.error e
    | .ok st => execStmt (y + 3) st
        (.seq (.exprStmt (.subscript (.name "arr") (.name "i")))
        (.seq (.assignName "i" (.bin .add (.name "i") (.lit (.vInt 1))))
        (.exprStmt (.bin .sub (.name "i") (.lit (.vInt 1))))))) = _
  rw [h1]
  show (match execStmt (y + 2) (C6mid n k)
      (.exprStmt (.subscript (.name "arr") (.name "i"))) with
    | .error e => Except.error e
    | .ok st => execStmt (y + 2) st
        (.seq (.assignName "i" (.bin .add (.name "i") (.lit (.vInt 1))))
        (.exprStmt (.bin .sub (.name "i") (.lit (.vInt 1)))))) = _
  rw [h2]
  show (match execStmt (y + 1) (C6mid n k)
      (.assignName "i" (.bin .add (.name "i") (.lit (.vInt 1)))) with
    | .error e => Except.error e
    | .ok st => execStmt (y + 1) st
        (.exprStmt (.bin .sub (.name "i") (.lit (.vInt 1))))) = _
  rw [h3]
  exact h4

/-- The `while (i<N):` loop genuinely iterates: from iteration `k` with
`r = n - k` iterations left (and any spare fuel `f`), it runs to the final
state with all `n` effects recorded. -/
theorem C6_loop_run (n : Nat) : ∀ r f k, k + r = n →
    execStmt (5 * r + f + 1) (C6state n k) C6loop = .ok (C6state n n) := by
  intro r
  induction r with
  | zero =>
      intro f k hk
      have hk' : k = n := by omega
      subst hk'
      have he : 5 * 0 + f + 1 = f + 1 := by omega
      rw [he]
      show (match evalExpr (C6state k k) C6cond with
        | .error err => Except.error err
        | .ok (cv, st) =>
            if truthy cv then
              (match execStmt f st C6body with
              | .error err => Except.error err
              | .ok st => execStmt f st (.whileStmt C6cond C6body))
            else Except.ok st) = _
      have hc : evalExpr (C6state k k) C6cond =
          .ok (.val (.vBool (decide ((k : Int) < (k : Int)))), C6state k k) := rfl
      rw [hc]
      show (if truthy (PyVal.val (PECValue.vBool
            (decide ((k : Int) < (k : Int))))) = true then
          (match execStmt f (C6state k k) C6body with
          | .error err => Except.error err
          | .ok st => execStmt f st (.whileStmt C6cond C6body))
        else Except.ok (C6state k k)) = _
      have ht : truthy (.val (.vBool (decide ((k : Int) < (k : Int))))) = false := by
        simp [truthy]
      rw [ht]
      rfl
  | succ r ih =>
      intro f k hk
      have hkn : k < n := by omega
      have he : 5 * (r + 1) + f + 1 = (5 * r + f + 5) + 1 := by ring
      rw [he]
      have hc : evalExpr (C6state n k) C6cond =
          .ok (.val (.vBool (decide ((k : Int) < (n : Int)))), C6state n k) := rfl
      show (match evalExpr (C6state n k) C6cond with
        | .error err => Except.error err
        | .ok (cv, st) =>
            if truthy cv then
              (match execStmt (5 * r + f + 5) st C6body with
              | .error err => Except.error err
              | .ok st => execStmt (5 * r + f + 5) st (.whileStmt C6cond C6body))
            else Except.ok st) = _
      rw [hc]
      show (if truthy (PyVal.val (PECValue.vBool
            (decide ((k : Int) < (n : Int))))) = true then
          (match execStmt (5 * r + f + 5) (C6state n k) C6body with
          | .error err => Except.error err
          | .ok st => execStmt (5 * r + f + 5) st (.whileStmt C6cond C6body))
        else Except.ok (C6state n k)) = _
      have ht : truthy (.val (.vBool (decide ((k : Int) < (n : Int))))) = true := by
        simp [truthy]
        exact_mod_cast hkn
      rw [ht]
      show (match execStmt (5 * r + f + 5) (C6state n k) C6body with
        | .error err => Except.error err
        | .ok st => execStmt (5 * r + f + 5) st (.whileStmt C6cond C6body)) = _
      have hb : execStmt (5 * r + f + 5) (C6state n k) C6body =
          .ok (C6state n (k + 1)) := C6_body_step n k hkn (5 * r + f + 1)
      rw [hb]
      exact ih (f + 4) (k + 1) (by omega)

/-- The manually unrolled body behaves identically, iteration by
iteration. -/
theorem C6_rep_run (n : Nat) : ∀ r f k, k + r = n →
    execStmt (5 * r + f + 1) (C6state n k) (C6bodyRep r) = .ok (C6state n n) := by
  intro r
  induction r with
  | zero =>
      intro f k hk
      have hk' : k = n := by omega
      subst hk'
      have he : 5 * 0 + f + 1 = f + 1 := by omega
      rw [he]
      rfl
  | succ r ih =>
      intro f k hk
      have hkn : k < n := by omega
      have he : 5 * (r + 1) + f + 1 = (5 * r + f + 5) + 1 := by ring
      rw [he]
      show (match execStmt (5 * r + f + 5) (C6state n k) C6body with
        | .error e => Except.error e
        | .ok st => execStmt (5 * r + f + 5) st (C6bodyRep r)) = _
      rw [C6_body_step n k hkn (5 * r + f + 1)]
      exact ih (f + 4) (k + 1) (by omega)

/-- No slot of the loop\'s trace is blanked or filtered: the retained
trace is exactly the `n` nodes in ascending order. -/
theorem C6_finalTrace (n : Nat) :
    finalTrace ((List.range n).map (fun j => some (C6form j))) = C6trace n := by
  unfold C6trace
  induction n with
  | zero => rfl
  | succ m ih =>
      rw [List.range_succ, List.map_append, List.map_append]
      unfold finalTrace at ih ⊢
      rw [List.filterMap_append, ih]
      rfl

/-- **C6** — The normalizer turns the C for-loop over a concrete bound
into an initializer line, a `while` header, the body and the synthesized
update; evaluating that program genuinely iterates: the trace holds exactly
`n` effects, one per index in ascending order, and equals the trace of the
manually unrolled program. -/
theorem C6_bounded_loop_iterates (n : Nat) :
    transpileStmts [] 0 C6csrc =
      ["arr=c_array(N,None)", "i=0", "i", "while (i<N):",
       "    arr[i]=f(i)", "    arr[i]", "    i += 1", "    i - 1"] ∧
    evaluate [] [C6file n] (C6file n) [] (5 * n + 9) C6prog =
      .ok (C6trace n) ∧
    evaluate [] [C6file n] (C6file n) [] (5 * n + 9) (C6unrolled n) =
      .ok (C6trace n) ∧
    (C6trace n).length = n := by
  have h1 : execStmt (5 * n + 8) (C6base n)
      (.assignName "arr" (.call "c_array" [.name "N", .lit .vNone])) =
      .ok (C6stateA n) := rfl
  have h2 : execStmt (5 * n + 7) (C6stateA n)
      (.assignName "i" (.lit (.vInt 0))) = .ok (C6state n 0) := rfl
  have h3 : execStmt (5 * n + 6) (C6state n 0) (.exprStmt (.name "i")) =
      .ok (C6state n 0) := rfl
  refine ⟨rfl, ?_, ?_, by simp [C6trace]⟩
  · have hp : execStmt (5 * n + 9) (C6base n) C6prog = .ok (C6state n n) := by
      show (match execStmt (5 * n + 8) (C6base n)
          (.assignName "arr" (.call "c_array" [.name "N", .lit .vNone])) with
        | .error e => Except.error e
        | .ok st => execStmt (5 * n + 8) st
            (.seq (.assignName "i" (.lit (.vInt 0)))
            (.seq (.exprStmt (.name "i")) C6loop))) = _
      rw [h1]
      show (match execStmt (5 * n + 7) (C6stateA n)
          (.assignName "i" (.lit (.vInt 0))) with
        | .error e => Except.error e
        | .ok st => execStmt (5 * n + 7) st
            (.seq (.exprStmt (.name "i")) C6loop)) = _
      rw [h2]
      show (match execStmt (5 * n + 6) (C6state n 0)
          (.exprStmt (.name "i")) with
        | .error e => Except.error e
        | .ok st => execStmt (5 * n + 6) st C6loop) = _
      rw [h3]
      exact C6_loop_run n n 5 0 (by omega)
    show (match execStmt (5 * n + 9) (C6base n) C6prog with
      | .error e => Except.error e
      | .ok st => Except.ok (finalTrace st.evaluated)) = _
    rw [hp]
    show Except.ok
      (finalTrace ((List.range n).map (fun j => some (C6form j)))) = _
    rw [C6_finalTrace]
  · have hp : execStmt (5 * n + 9) (C6base n) (C6unrolled n) =
        .ok (C6state n n) := by
      show (match execStmt (5 * n + 8) (C6base n)
          (.assignName "arr" (.call "c_array" [.name "N", .lit .vNone])) with
        | .error e => Except.error e
        | .ok st => execStmt (5 * n + 8) st
            (.seq (.assignName "i" (.lit (.vInt 0)))
            (.seq (.exprStmt (.name "i")) (C6bodyRep n)))) = _
      rw [h1]
      show (match execStmt (5 * n + 7) (C6stateA n)
          (.assignName "i" (.lit (.vInt 0))) with
        | .error e => Except.error e
        | .ok st => execStmt (5 * n + 7) st
            (.seq (.exprStmt (.name "i")) (C6bodyRep n))) = _
      rw [h2]
      show (match execStmt (5 * n + 6) (C6state n 0)
          (.exprStmt (.name "i")) with
        | .error e => Except.error e
        | .ok st => execStmt (5 * n + 6) st (C6bodyRep n)) = _
      rw [h3]
      exact C6_rep_run n n 5 0 (by omega)
    show (match execStmt (5 * n + 9) (C6base n) (C6unrolled n) with
      | .error e => Except.error e
      | .ok st => Except.ok (finalTrace st.evaluated)) = _
    rw [hp]
    show Except.ok
      (finalTrace ((List.range n).map (fun j => some (C6form j)))) = _
    rw [C6_finalTrace]

end EmacsExtractor

